import Mathlib

/-!
Verification development for the Trident storage orchestrator core
(`src/core/orchestrator_core.go`).

The Go code is shallowly embedded as pure Lean functions over an explicit
orchestrator state.  Go maps become association lists (`SMap`); the Go
pointer graph (volumes pointing at their backend and pool) is expressed in
the arena-plus-index style the repository's own design notes describe:
volumes carry the names of their backend and pool, pools carry a map from
volume name to volume config, and name resolution plays the role of pointer
dereference.  External collaborators (the persistent store client and the
per-backend drivers) perform I/O; their success or failure at each call
site is injected through explicit boolean oracles, and the persistent
store's durable contents are carried in the state so that claims about the
store can be stated.
-/

set_option maxHeartbeats 1000000

namespace Trident

/-! ## Association-list maps (the embedding of Go maps) -/

/-- A Go `map[string]V`, embedded as an association list.  Insertion
replaces any previous binding of the key. -/
abbrev SMap (α : Type) := List (String × α)

/-- Lookup, corresponding to `m[k]` with the `ok` flag. -/
def mapFind? : SMap α → String → Option α
  | [], _ => none
  | p :: t, k => if p.1 = k then some p.2 else mapFind? t k

/-- Insertion `m[k] = v`: the new binding shadows and drops any old one. -/
def mapInsert (m : SMap α) (k : String) (v : α) : SMap α :=
  (k, v) :: m.filter (fun p => p.1 != k)

/-- Deletion `delete(m, k)`. -/
def mapErase (m : SMap α) (k : String) : SMap α :=
  m.filter (fun p => p.1 != k)

/-- In-place update of the value stored at `k` (a no-op when `k` is absent),
the embedding of mutating a value reached through a Go pointer held in a
map. -/
def mapModify (m : SMap α) (k : String) (f : α → α) : SMap α :=
  m.map (fun p => if p.1 = k then (p.1, f p.2) else p)

@[simp] theorem mapFind?_nil (k : String) : mapFind? ([] : SMap α) k = none := rfl

theorem mapFind?_cons (p : String × α) (t : SMap α) (k : String) :
    mapFind? (p :: t) k = if p.1 = k then some p.2 else mapFind? t k := rfl

theorem mapFind?_filter_ne (m : SMap α) (k k' : String) (h : k' ≠ k) :
    mapFind? (m.filter (fun p => p.1 != k)) k' = mapFind? m k' := by
  induction m with
  | nil => rfl
  | cons a t ih =>
    by_cases ha : a.1 = k
    · have hf : (a.1 != k) = false := by simp [ha]
      have hne : ¬(a.1 = k') := by rw [ha]; exact fun hh => h hh.symm
      simp [List.filter_cons, hf, mapFind?_cons, hne, ih]
    · have hf : (a.1 != k) = true := by simp [ha]
      by_cases hk : a.1 = k'
      · simp [List.filter_cons, hf, mapFind?_cons, hk, h]
      · simp [List.filter_cons, hf, mapFind?_cons, hk, ih]

theorem mapFind?_insert_self (m : SMap α) (k : String) (v : α) :
    mapFind? (mapInsert m k v) k = some v := by
  simp [mapInsert, mapFind?_cons]

theorem mapFind?_insert_ne (m : SMap α) (k k' : String) (v : α) (h : k' ≠ k) :
    mapFind? (mapInsert m k v) k' = mapFind? m k' := by
  have hne : ¬(k = k') := fun hh => h hh.symm
  simp only [mapInsert, mapFind?_cons, hne, if_false]
  exact mapFind?_filter_ne m k k' h

theorem mapFind?_erase_self (m : SMap α) (k : String) :
    mapFind? (mapErase m k) k = none := by
  induction m with
  | nil => rfl
  | cons a t ih =>
    by_cases ha : a.1 = k
    · have hf : (a.1 != k) = false := by simp [ha]
      simpa [mapErase, List.filter_cons, hf] using ih
    · have hf : (a.1 != k) = true := by simp [ha]
      simpa [mapErase, List.filter_cons, hf, mapFind?_cons, ha] using ih

theorem mapFind?_erase_ne (m : SMap α) (k k' : String) (h : k' ≠ k) :
    mapFind? (mapErase m k) k' = mapFind? m k' :=
  mapFind?_filter_ne m k k' h

theorem mapFind?_modify_self (m : SMap α) (k : String) (f : α → α) :
    mapFind? (mapModify m k f) k = (mapFind? m k).map f := by
  induction m with
  | nil => rfl
  | cons a t ih =>
    by_cases ha : a.1 = k
    · simp [mapModify, mapFind?_cons, ha]
    · simpa [mapModify, mapFind?_cons, ha] using ih

theorem mapFind?_modify_ne (m : SMap α) (k k' : String) (f : α → α) (h : k' ≠ k) :
    mapFind? (mapModify m k f) k' = mapFind? m k' := by
  induction m with
  | nil => rfl
  | cons a t ih =>
    have hsymm : k ≠ k' := fun hh => h hh.symm
    by_cases ha : a.1 = k
    · have hne : ¬(a.1 = k') := by rw [ha]; exact hsymm
      simpa [mapModify, mapFind?_cons, ha, hne, hsymm] using ih
    · by_cases hk : a.1 = k'
      · simp [mapModify, mapFind?_cons, ha, hk, h]
      · simpa [mapModify, mapFind?_cons, ha, hk] using ih

theorem mem_mapInsert {m : SMap α} {k : String} {v : α} {p : String × α}
    (h : p ∈ mapInsert m k v) : p = (k, v) ∨ (p ∈ m ∧ p.1 ≠ k) := by
  simp only [mapInsert, List.mem_cons, List.mem_filter, bne_iff_ne, ne_eq] at h
  tauto

theorem mem_mapErase {m : SMap α} {k : String} {p : String × α}
    (h : p ∈ mapErase m k) : p ∈ m ∧ p.1 ≠ k := by
  simpa only [mapErase, List.mem_filter, bne_iff_ne, ne_eq] using h

theorem mem_mapModify {m : SMap α} {k : String} {f : α → α} {p : String × α}
    (h : p ∈ mapModify m k f) :
    ∃ q ∈ m, p = if q.1 = k then (q.1, f q.2) else q := by
  simpa only [mapModify, List.mem_map] using
    (List.mem_map.mp h).imp (fun q hq => ⟨hq.1, hq.2.symm⟩)

/-! ## Data model -/

/-- `config.Protocol`. -/
inductive Protocol where
  | file
  | block
  | any
deriving DecidableEq

/-- `config.AccessMode`; `unknown` stands for any value other than the
three named modes and exercises the `default` arm of `getProtocol`. -/
inductive AccessMode where
  | readWriteOnce
  | readOnlyMany
  | readWriteMany
  | unknown
deriving DecidableEq

/-- `storage.VolumeConfig` (the fields the core reads). -/
structure VolumeConfig where
  name : String
  size : String
  storageClass : String
  protocol : Protocol
  accessMode : AccessMode
  version : Nat
deriving DecidableEq

/-- `storage.Volume`: a config plus weak references (names) to the hosting
backend and pool, the arena-plus-index rendering of the Go pointers
`Volume.Backend` and `Volume.Pool`. -/
structure Volume where
  config : VolumeConfig
  backendName : String
  poolName : String
deriving DecidableEq

/-- `storage.StoragePool`: attributes, the storage classes it currently
satisfies, and its volume map. -/
structure Pool where
  name : String
  attributes : SMap String
  storageClasses : List String
  volumes : SMap VolumeConfig
deriving DecidableEq

/-- `storage.StorageBackend`.  `storagePfx` is the driver's storage prefix,
from which backend-internal volume names are derived. -/
structure Backend where
  name : String
  protocol : Protocol
  online : Bool
  storagePfx : String
  storage : SMap Pool
deriving DecidableEq

/-- `StorageBackend.HasVolumes`: true iff any pool holds at least one
volume. -/
def Backend.hasVolumes (b : Backend) : Bool :=
  b.storage.any (fun p => !p.2.volumes.isEmpty)

/-- Modelled from the spec: `Driver.GetInternalVolumeName` derives the
backend-local name from the orchestrator name via the backend's fixed
storage prefix (the driver itself lives outside this repository). -/
def Backend.internalName (b : Backend) (volName : String) : String :=
  b.storagePfx ++ volName

/-- A membership entry of a storage class: a reference to one pool of one
backend, together with the backend's protocol (the data
`GetStoragePoolsForProtocol` filters on). -/
structure PoolRef where
  backendName : String
  poolName : String
  protocol : Protocol
deriving DecidableEq

/-- `storage_class.StorageClass`.  Modelled from the spec: the class holds
a predicate over pool attributes; here the predicate is a set of required
attribute values, which is all the core's claims depend on.  `members` is
the materialized list of pools currently satisfying the class. -/
structure StorageClass where
  name : String
  requiredAttributes : SMap String
  members : List PoolRef
deriving DecidableEq

/-- Modelled from the spec: `StorageClass.Matches` evaluates the class
predicate on a pool's attributes. -/
def StorageClass.matchesAttrs (sc : StorageClass) (attrs : SMap String) : Bool :=
  sc.requiredAttributes.all (fun kv => mapFind? attrs kv.1 == some kv.2)

/-- Predicate evaluation on a pool. -/
def StorageClass.matchesPool (sc : StorageClass) (p : Pool) : Bool :=
  sc.matchesAttrs p.attributes

/-- `persistent_store.VolumeTransaction.Op`. -/
inductive TxnOp where
  | addVolume
  | deleteVolume
deriving DecidableEq

/-- `persistent_store.VolumeTransaction`. -/
structure VolTxn where
  op : TxnOp
  config : VolumeConfig
deriving DecidableEq

/-- The durable contents of the persistent store: four flat namespaces
keyed by entity name.  For backends only the online flag is recorded (the
claims only inspect presence). -/
structure Store where
  backends : SMap Bool
  volumes : SMap VolumeConfig
  storageClasses : SMap Unit
  volTxns : SMap VolTxn
deriving DecidableEq

/-- The orchestrator state: the in-memory catalogs of
`tridentOrchestrator` plus the persistent store contents. -/
structure OState where
  backends : SMap Backend
  volumes : SMap Volume
  storageClasses : SMap StorageClass
  store : Store
  bootstrapped : Bool
deriving DecidableEq

/-! ## Protocol resolution (`getProtocol`, lines 811-822) -/

/-- `tridentOrchestrator.getProtocol`: the protocol implied by a volume
access mode (`ReadWriteOnce → Any`, `ReadOnlyMany → File`,
`ReadWriteMany → File`, default `Any`). -/
def getProtocol : AccessMode → Protocol
  | .readWriteOnce => .any
  | .readOnlyMany => .file
  | .readWriteMany => .file
  | .unknown => .any

/-- Modelled from the spec: `storage_class.GetStoragePoolsForProtocol`
(the storage_class package is outside this repository) returns all members
when asked for `Any`, and otherwise the members whose backend carries the
requested protocol (an `Any` backend carries both concrete protocols). -/
def StorageClass.getStoragePoolsForProtocol (sc : StorageClass) (p : Protocol) : List PoolRef :=
  if p = .any then sc.members
  else sc.members.filter (fun m => decide (m.protocol = p ∨ m.protocol = .any))

/-- The effective protocol of a volume request as specified in §4.4 step 1
and computed (into a local that is then never read) at lines 511-514 of
`AddVolume`. -/
def addVolumeEffectiveProtocol (cfg : VolumeConfig) : Protocol :=
  if cfg.protocol = .any then getProtocol cfg.accessMode else cfg.protocol

/-- The pools `AddVolume` actually considers: line 515 passes the request's
original `volumeConfig.Protocol` to `GetStoragePoolsForProtocol`, not the
derived effective protocol. -/
def addVolumePlacementPools (sc : StorageClass) (cfg : VolumeConfig) : List PoolRef :=
  sc.getStoragePoolsForProtocol cfg.protocol

/-- The pools §4.4 step 2 of the spec prescribes: those eligible for the
derived effective protocol. -/
def specPlacementPools (sc : StorageClass) (cfg : VolumeConfig) : List PoolRef :=
  sc.getStoragePoolsForProtocol (addVolumeEffectiveProtocol cfg)

/-- `config.OrchestratorMajorVersion`; the concrete value lives in the
external config package and none of the claims depend on it. -/
def orchestratorMajorVersion : Nat := 1

/-! ## deleteVolume / DeleteVolume (lines 707-786) -/

/-- Success flags for the external calls `deleteVolume` makes: the driver
`RemoveVolume`, the store `DeleteVolumeIgnoreNotFound`, and the store
`DeleteBackend`. -/
structure DVOracles where
  removeVolumeOk : Bool
  storeDeleteVolumeOk : Bool
  storeDeleteBackendOk : Bool
deriving DecidableEq

/-- The failure cases of `deleteVolume`.  `volumeNotFound` and
`backendNotFound` model dereferences the Go code assumes its caller has
made impossible. -/
inductive DVErr where
  | volumeNotFound
  | backendNotFound
  | removeVolumeFailed
  | storeDeleteVolumeFailed
  | storeDeleteBackendFailed
deriving DecidableEq

/-- Modelled from the spec: `storage.StorageBackend.RemoveVolume` (storage
package, outside this repository) destroys the volume on the array and, on
success, removes it from its pool's volume map.  This is the successful
half; driver failure is injected at the call sites. -/
def Backend.removeVolume (b : Backend) (volName poolName : String) : Backend :=
  { b with storage := (mapModify b.storage poolName
      (fun p => { p with volumes := mapErase p.volumes volName })) }

/-- `tridentOrchestrator.deleteVolume` (lines 707-745): driver removal,
store volume deletion, conditional deletion of a now volume-less offline
backend (store first, then memory), and finally removal from the in-memory
volume catalog. -/
def deleteVolume (s : OState) (o : DVOracles) (volumeName : String) : Option DVErr × OState :=
  match mapFind? s.volumes volumeName with
  | none => (some .volumeNotFound, s)
  | some volume =>
    match mapFind? s.backends volume.backendName with
    | none => (some .backendNotFound, s)
    | some backend =>
      if !o.removeVolumeOk then (some .removeVolumeFailed, s)
      else
        let backend := backend.removeVolume volumeName volume.poolName
        let s1 := { s with backends := mapInsert s.backends volume.backendName backend }
        if !o.storeDeleteVolumeOk then (some .storeDeleteVolumeFailed, s1)
        else
          let s2 := { s1 with store :=
            { s1.store with volumes := mapErase s1.store.volumes volumeName } }
          if !backend.online && !backend.hasVolumes then
            if !o.storeDeleteBackendOk then (some .storeDeleteBackendFailed, s2)
            else
              (none,
               { s2 with
                  store := { s2.store with
                    backends := mapErase s2.store.backends volume.backendName },
                  backends := mapErase s2.backends volume.backendName,
                  volumes := mapErase s2.volumes volumeName })
          else (none, { s2 with volumes := mapErase s2.volumes volumeName })

/-- Success flags for `DeleteVolume`'s own store calls, plus the inner
`deleteVolume` oracles. -/
structure DelOracles where
  dv : DVOracles
  addTxnOk : Bool
  deleteTxnOk : Bool
deriving DecidableEq

/-- The failure cases of the public `DeleteVolume`. -/
inductive DelErr where
  | notFound
  | addTxnFailed
  | deleteFailed (e : DVErr)
deriving DecidableEq

/-- `tridentOrchestrator.DeleteVolume` (lines 754-786).  Returns the Go
`(found, err)` pair.  Note the final branch: when the transaction cannot be
cleared the volume is reinserted into the catalog and the call still
returns `(true, nil)`. -/
def DeleteVolume (s : OState) (o : DelOracles) (volumeName : String) :
    (Bool × Option DelErr) × OState :=
  match mapFind? s.volumes volumeName with
  | none => ((false, some .notFound), s)
  | some volume =>
    if !o.addTxnOk then ((true, some .addTxnFailed), s)
    else
      let volTxn : VolTxn := { op := .deleteVolume, config := volume.config }
      let s1 := { s with store :=
        { s.store with volTxns := mapInsert s.store.volTxns volumeName volTxn } }
      match deleteVolume s1 o.dv volumeName with
      | (some e, s2) => ((true, some (.deleteFailed e)), s2)
      | (none, s2) =>
        if !o.deleteTxnOk then
          ((true, none), { s2 with volumes := mapInsert s2.volumes volumeName volume })
        else
          ((true, none), { s2 with store :=
            { s2.store with volTxns := mapErase s2.store.volTxns volumeName } })

/-! ## Transaction rollback (`rollBackTransaction`, lines 207-289) -/

/-- Success flags for the external calls rollback makes: per-backend
`Driver.Destroy`, the inner `deleteVolume` oracles, and
`DeleteVolumeTransaction`. -/
structure RBOracles where
  destroyOk : String → Bool
  dv : DVOracles
  deleteTxnOk : Bool

/-- The failure cases of `rollBackTransaction`. -/
inductive RBErr where
  | cleanupVolumeFailed (e : DVErr)
  | destroyFailed (backend : String)
  | deleteTxnFailed
  | cleanupDeletedVolumeFailed (e : DVErr)
deriving DecidableEq

/-- The destroy loop of the add-volume rollback branch (lines 237-254):
visit every backend, skip offline ones, call `Destroy` with the
backend-internal name on online ones, stopping at the first failure.
Returns the first failing backend (if any) and the log of `Destroy` calls
made, as (backend name, internal volume name) pairs. -/
def destroyAll (destroyOk : String → Bool) (volName : String) :
    List (String × Backend) → List (String × String) →
    Option String × List (String × String)
  | [], calls => (none, calls)
  | (n, b) :: rest, calls =>
    if !b.online then destroyAll destroyOk volName rest calls
    else
      let calls := calls ++ [(n, b.internalName volName)]
      if destroyOk n then destroyAll destroyOk volName rest calls
      else (some n, calls)

/-- The common tail of both rollback branches: delete the volume
transaction from the store (lines 256-261 and 283-286). -/
def rbFinish (s : OState) (deleteTxnOk : Bool) (name : String) : Option RBErr × OState :=
  if deleteTxnOk then
    (none, { s with store := { s.store with volTxns := mapErase s.store.volTxns name } })
  else (some .deleteTxnFailed, s)

/-- `tridentOrchestrator.rollBackTransaction` (lines 207-289).  Also
returns the log of `Driver.Destroy` calls issued by the add-volume
branch. -/
def rollBackTransaction (s : OState) (o : RBOracles) (txn : VolTxn) :
    (Option RBErr × OState) × List (String × String) :=
  match txn.op with
  | .addVolume =>
    match mapFind? s.volumes txn.config.name with
    | some _ =>
      match deleteVolume s o.dv txn.config.name with
      | (some e, s1) => ((some (.cleanupVolumeFailed e), s1), [])
      | (none, s1) => (rbFinish s1 o.deleteTxnOk txn.config.name, [])
    | none =>
      match destroyAll o.destroyOk txn.config.name s.backends [] with
      | (some bn, calls) => ((some (.destroyFailed bn), s), calls)
      | (none, calls) => (rbFinish s o.deleteTxnOk txn.config.name, calls)
  | .deleteVolume =>
    match mapFind? s.volumes txn.config.name with
    | some _ =>
      match deleteVolume s o.dv txn.config.name with
      | (some e, s1) => ((some (.cleanupDeletedVolumeFailed e), s1), [])
      | (none, s1) => (rbFinish s1 o.deleteTxnOk txn.config.name, [])
    | none => (rbFinish s o.deleteTxnOk txn.config.name, [])

/-! ## AddVolume (lines 492-646) -/

/-- One entry of `AddVolume`'s `errorMessages` list (lines 627-631): the
Go code formats the volume, pool and backend names and the backend error
into one string; the embedding keeps the components. -/
structure AttemptFailure where
  volume : String
  pool : String
  backend : String
  msg : String
deriving DecidableEq

/-- External-call behaviour injected into `AddVolume`: store-call success
flags, the rollback oracles for a pre-existing transaction, the per-pool
driver create outcome (`some msg` is a failure with that message, `none`
is success), the driver outcome of the recovery `RemoveVolume`, and the
pool visiting order produced by `rand.Perm` (a list of indices into the
eligible pool list). -/
structure AVOracles where
  getTxnOk : Bool
  rb : RBOracles
  addTxnOk : Bool
  createErr : String → String → Option String
  recoverRemoveOk : Bool
  storeAddOk : Bool
  deleteTxnOk : Bool
  perm : List Nat

/-- The base error of `AddVolume` before the deferred recovery logic runs
(each constructor is one `return nil, err` site or the value `err` holds
when the function falls off the placement loop). -/
inductive AVErr where
  | alreadyExists
  | unknownStorageClass
  | noBackendAvailable
  | getTxnFailed
  | rollbackFailed (e : RBErr)
  | addTxnFailed
  | storeAddVolumeFailed
  | noSuitableBackend
  | allBackendsFailed (entries : List AttemptFailure)
deriving DecidableEq

/-- The overall outcome of `AddVolume`: success with the created volume, or
an error carrying the base error together with the two flags the deferred
recovery function (lines 549-597) can raise (`cleanupErr` from the backend
cleanup, `txErr` from deleting the transaction).  The Go message is the
join of the non-nil components. -/
inductive AVOutcome where
  | ok (vol : Volume)
  | err (base : Option AVErr) (cleanupFailed : Bool) (txnDeleteFailed : Bool)
deriving DecidableEq

/-- The intermediate result of the placement loop. -/
inductive AVBodyOut where
  | success (vol : Volume) (s : OState)
  | storeAddFailed (vol : Volume) (s : OState)
  | exhausted (entries : List AttemptFailure) (s : OState)

/-- The placement loop of `AddVolume` (lines 599-633 plus the in-loop store
write of lines 613-619): visit the eligible pools in the injected order;
on driver success the volume's `Any` protocol is replaced by the backend's
protocol, the volume enters the pool's volume map (modelled from the spec:
`StorageBackend.AddVolume` records the new volume on the pool), and the
volume is written to the store and the catalog; on driver failure an
`errorMessages` entry is recorded and the next pool is tried. -/
def placementLoop (o : AVOracles) (cfg : VolumeConfig) (pools : List PoolRef) (s : OState) :
    List Nat → List AttemptFailure → AVBodyOut
  | [], entries => .exhausted entries s
  | i :: rest, entries =>
    match pools[i]? with
    | none => placementLoop o cfg pools s rest entries
    | some pr =>
      match o.createErr pr.backendName pr.poolName with
      | some msg =>
        placementLoop o cfg pools s rest
          (entries ++ [⟨cfg.name, pr.poolName, pr.backendName, msg⟩])
      | none =>
        let bproto := ((mapFind? s.backends pr.backendName).map Backend.protocol).getD cfg.protocol
        let cfg1 := if cfg.protocol = .any then { cfg with protocol := bproto } else cfg
        let vol : Volume := ⟨cfg1, pr.backendName, pr.poolName⟩
        let s1 := { s with backends := (mapModify s.backends pr.backendName
          (fun b => { b with storage := (mapModify b.storage pr.poolName
            (fun p => { p with volumes := mapInsert p.volumes cfg.name cfg1 })) })) }
        if o.storeAddOk then
          .success vol
            { s1 with
               store := { s1.store with volumes := mapInsert s1.store.volumes cfg.name cfg1 },
               volumes := mapInsert s1.volumes cfg.name vol }
        else .storeAddFailed vol s1

/-- The deferred recovery function of `AddVolume` (lines 549-597), applied
to the loop outcome.  It runs on every return after the transaction was
logged: on an error with a created volume it removes the volume from the
backend; if that cleanup succeeded or was unnecessary it deletes the
volume transaction; if either cleanup or transaction deletion failed it
drops the volume from the catalog and reports the aggregated error. -/
def avFinish (o : AVOracles) (name : String) : AVBodyOut → AVOutcome × OState
  | .success vol s =>
    if o.deleteTxnOk then
      (.ok vol, { s with store := { s.store with volTxns := mapErase s.store.volTxns name } })
    else
      (.err none false true, { s with volumes := mapErase s.volumes name })
  | .storeAddFailed vol s =>
    if o.recoverRemoveOk then
      let s1 := { s with backends := (mapModify s.backends vol.backendName
        (fun b => b.removeVolume name vol.poolName)) }
      if o.deleteTxnOk then
        (.err (some .storeAddVolumeFailed) false false,
         { s1 with store := { s1.store with volTxns := mapErase s1.store.volTxns name } })
      else
        (.err (some .storeAddVolumeFailed) false true,
         { s1 with volumes := mapErase s1.volumes name })
    else
      (.err (some .storeAddVolumeFailed) true false,
       { s with volumes := mapErase s.volumes name })
  | .exhausted entries s =>
    let base : AVErr :=
      if entries.isEmpty then .noSuitableBackend else .allBackendsFailed entries
    if o.deleteTxnOk then
      (.err (some base) false false,
       { s with store := { s.store with volTxns := mapErase s.store.volTxns name } })
    else
      (.err (some base) false true, { s with volumes := mapErase s.volumes name })

/-- `tridentOrchestrator.AddVolume` (lines 492-646): duplicate-name check,
version stamp, storage-class lookup, eligible-pool computation (note line
515 uses the request's original protocol), rollback of any pre-existing
add transaction, write-ahead transaction, placement loop, deferred
recovery. -/
def AddVolume (s : OState) (o : AVOracles) (cfgIn : VolumeConfig) : AVOutcome × OState :=
  if (mapFind? s.volumes cfgIn.name).isSome then
    (.err (some .alreadyExists) false false, s)
  else
    let cfg := { cfgIn with version := orchestratorMajorVersion }
    match mapFind? s.storageClasses cfg.storageClass with
    | none => (.err (some .unknownStorageClass) false false, s)
    | some sc =>
      let pools := addVolumePlacementPools sc cfg
      if pools.isEmpty then (.err (some .noBackendAvailable) false false, s)
      else if !o.getTxnOk then (.err (some .getTxnFailed) false false, s)
      else
        let rolled : Option RBErr × OState :=
          match mapFind? s.store.volTxns cfg.name with
          | some oldTxn => (rollBackTransaction s o.rb oldTxn).1
          | none => (none, s)
        match rolled with
        | (some e, s1) => (.err (some (.rollbackFailed e)) false false, s1)
        | (none, s1) =>
          if !o.addTxnOk then (.err (some .addTxnFailed) false false, s1)
          else
            let s2 := { s1 with store := { s1.store with
              volTxns := mapInsert s1.store.volTxns cfg.name ⟨.addVolume, cfg⟩ } }
            avFinish o cfg.name (placementLoop o cfg pools s2 o.perm [])

/-! ## AddStorageBackend (lines 305-369, 375-441, 908-927) -/

/-- One pool of a backend configuration. -/
structure PoolConfig where
  name : String
  attributes : SMap String
deriving DecidableEq

/-- A parsed backend configuration. -/
structure BackendConfig where
  name : String
  protocol : Protocol
  storagePfx : String
  pools : List PoolConfig
deriving DecidableEq

/-- Modelled from the spec: `factory.NewStorageBackendForConfig` (outside
this repository) builds a fresh backend from a parsed configuration; a
fresh backend is online and its pools hold no volumes and satisfy no
storage classes yet. -/
def factoryBackend (cfg : BackendConfig) : Backend :=
  { name := cfg.name
    protocol := cfg.protocol
    online := true
    storagePfx := cfg.storagePfx
    storage := cfg.pools.map (fun pc =>
      (pc.name, { name := pc.name, attributes := pc.attributes,
                  storageClasses := [], volumes := [] })) }

/-- One entry of `validateBackendUpdate`'s `errorList` (the Go code stores
formatted strings; the embedding keeps the structured content). -/
inductive UpdateErr where
  | protocolChanged
  | missingUsedPool (pool : String)
  | classMismatch (pool sc : String)
deriving DecidableEq

/-- `tridentOrchestrator.validateBackendUpdate` (lines 305-369): the
protocol must not change, every old pool holding volumes must still exist,
and every still-present pool that carries volumes of a storage class must
still match that class.  A dangling storage-class name on a volume is
skipped (the Go code would dereference nil there; no claim exercises
it). -/
def validateBackendUpdate (scs : SMap StorageClass) (old nb : Backend) : List UpdateErr :=
  (if old.protocol ≠ nb.protocol then [.protocolChanged] else [])
  ++ ((old.storage.filter (fun p => !p.2.volumes.isEmpty)).filterMap
        (fun p => if (mapFind? nb.storage p.1).isNone
                  then some (.missingUsedPool p.1) else none))
  ++ (old.storage.flatMap (fun p => p.2.volumes.flatMap (fun v =>
        match mapFind? scs v.2.storageClass with
        | none => []
        | some sc =>
          match mapFind? nb.storage p.1 with
          | some newP =>
            if sc.matchesPool newP then [] else [.classMismatch p.1 v.2.storageClass]
          | none => [])))

/-- Modelled from the spec: `storage_class.RemovePoolsForBackend` drops
every pool of the named backend from the class's member list. -/
def StorageClass.removePoolsForBackend (sc : StorageClass) (backendName : String) : StorageClass :=
  { sc with members := sc.members.filter (fun m => m.backendName != backendName) }

/-- Modelled from the spec: `storage_class.CheckAndAddBackend` adds every
pool of the backend that satisfies the class predicate to the class's
member list and records the class name on each such pool. -/
def checkAndAddBackend (sc : StorageClass) (b : Backend) : StorageClass × Backend :=
  let matching := b.storage.filter (fun p => sc.matchesPool p.2)
  ({ sc with members :=
      sc.members.filter (fun m => m.backendName != b.name)
      ++ matching.map (fun p => ⟨b.name, p.1, b.protocol⟩) },
   { b with storage := b.storage.map (fun p =>
      if sc.matchesPool p.2
      then (p.1, { p.2 with storageClasses := p.2.storageClasses ++ [sc.name] })
      else p) })

/-- The storage-class loop of `AddStorageBackend` (lines 408-416): for an
update, first drop the old backend's pools from each class, then re-add
the matching pools of the new backend. -/
def scLoop : SMap StorageClass → Option Backend → Backend → SMap StorageClass × Backend
  | [], _, nb => ([], nb)
  | (n, sc) :: rest, old?, nb =>
    let sc1 := match old? with
      | some old => sc.removePoolsForBackend old.name
      | none => sc
    let step := checkAndAddBackend sc1 nb
    let rest1 := scLoop rest old? step.2
    ((n, step.1) :: rest1.1, rest1.2)

/-- The inner loop of the volume transfer (line 431-437 body): write each
volume of one old pool into a pool's volume map. -/
def poolAddVolumes (vols : SMap VolumeConfig) (pl : Pool) : Pool :=
  vols.foldl (fun q v => { q with volumes := mapInsert q.volumes v.1 v.2 }) pl

/-- The volume-transfer loop of a backend update (lines 429-439): every
volume held by an old pool is written into the same-named pool of the new
backend object.  The Go loop writes one volume at a time through the
shared pool pointer; grouping the writes per pool is the same net update
because each write targets the pool named by its own outer-loop key. -/
def transferVolumes (s : OState) (old : Backend) (nbName : String) : OState :=
  { s with backends := (mapModify s.backends nbName (fun nb =>
      { nb with storage := (old.storage.foldl (fun st pPair =>
          mapModify st pPair.1 (poolAddVolumes pPair.2.volumes))
        nb.storage) })) }

/-- The failure cases of `AddStorageBackend` (config parsing happens in
the external factory and is not modelled). -/
inductive ABErr where
  | invalidUpdate (errs : List UpdateErr)
  | storeFailed
deriving DecidableEq

/-- The successful tail of `AddStorageBackend` (lines 403-440):
`updateBackendOnPersistentStore` (a store write only once bootstrapped),
insertion into the registry, the storage-class loop, and for updates the
volume transfer. -/
def addBackendCommit (s : OState) (storeOk : Bool) (old? : Option Backend) (nb : Backend) :
    Option ABErr × OState :=
  if s.bootstrapped && !storeOk then (some .storeFailed, s)
  else
    let store1 := if s.bootstrapped
      then { s.store with backends := mapInsert s.store.backends nb.name nb.online }
      else s.store
    let s1 := { s with store := store1, backends := mapInsert s.backends nb.name nb }
    let looped := scLoop s1.storageClasses old? nb
    let s2 := { s1 with storageClasses := looped.1,
                        backends := mapInsert s1.backends nb.name looped.2 }
    match old? with
    | none => (none, s2)
    | some old => (none, transferVolumes s2 old nb.name)

/-- `tridentOrchestrator.AddStorageBackend` (lines 375-441): build the new
backend, validate against any existing backend of the same name, persist,
insert, update class memberships, and rebind/transfer existing volumes. -/
def AddStorageBackend (s : OState) (storeOk : Bool) (cfg : BackendConfig) :
    Option ABErr × OState :=
  let nb := factoryBackend cfg
  match mapFind? s.backends nb.name with
  | some old =>
    let errs := validateBackendUpdate s.storageClasses old nb
    if errs.isEmpty then addBackendCommit s storeOk (some old) nb
    else (some (.invalidUpdate errs), s)
  | none => addBackendCommit s storeOk none nb

/-! ## OfflineBackend (lines 466-490) -/

/-- `tridentOrchestrator.OfflineBackend`: mark the backend offline, clear
each pool's storage-class list, remove the backend's pools from every
affected class, then delete the backend (memory first, then store) if it
has no volumes, or persist the update otherwise.  Returns the Go
`(found, err)` pair with the error as a `storeOk` flag. -/
def OfflineBackend (s : OState) (storeOk : Bool) (backendName : String) :
    (Bool × Bool) × OState :=
  match mapFind? s.backends backendName with
  | none => ((false, true), s)
  | some backend =>
    let affected := backend.storage.flatMap (fun p => p.2.storageClasses)
    let backend1 := { backend with
                       online := false,
                       storage := backend.storage.map
                         (fun p => (p.1, { p.2 with storageClasses := [] })) }
    let scs := s.storageClasses.map (fun q =>
      if q.1 ∈ affected then (q.1, q.2.removePoolsForBackend backendName) else q)
    let s1 := { s with storageClasses := scs,
                       backends := mapInsert s.backends backendName backend1 }
    if !backend1.hasVolumes then
      ((true, storeOk),
       { s1 with backends := mapErase s1.backends backendName,
                 store := if storeOk
                   then { s1.store with backends := mapErase s1.store.backends backendName }
                   else s1.store })
    else
      ((true, storeOk),
       if storeOk
       then { s1 with store :=
         { s1.store with backends := mapInsert s1.store.backends backendName false } }
       else s1)

/-! ## AddStorageClass / DeleteStorageClass (lines 824-850, 876-906) -/

/-- A parsed storage-class configuration. -/
structure SCConfig where
  name : String
  requiredAttributes : SMap String
deriving DecidableEq

/-- The backend loop of `AddStorageClass` (lines 837-839), threading the
class through `CheckAndAddBackend` on every backend. -/
def scAddLoop : StorageClass → SMap Backend → StorageClass × SMap Backend
  | sc, [] => (sc, [])
  | sc, (n, b) :: rest =>
    let step := checkAndAddBackend sc b
    let rest1 := scAddLoop step.1 rest
    (rest1.1, (n, step.2) :: rest1.2)

/-- `tridentOrchestrator.AddStorageClass`: duplicate check, store write,
insertion, membership computation over all backends.  The Bool result is
true on success (the Go call returns the external snapshot). -/
def AddStorageClass (s : OState) (storeOk : Bool) (cfg : SCConfig) : Bool × OState :=
  if (mapFind? s.storageClasses cfg.name).isSome then (false, s)
  else if !storeOk then (false, s)
  else
    let sc : StorageClass := ⟨cfg.name, cfg.requiredAttributes, []⟩
    let looped := scAddLoop sc s.backends
    (true,
     { s with
        store := { s.store with storageClasses := mapInsert s.store.storageClasses cfg.name () },
        storageClasses := mapInsert s.storageClasses cfg.name looped.1,
        backends := looped.2 })

/-- `tridentOrchestrator.DeleteStorageClass`: delete from store and
memory, then clear the class name from every member pool; volumes keep
their dangling class reference by design.  Returns `(found, storeOk)`. -/
def DeleteStorageClass (s : OState) (storeOk : Bool) (scName : String) :
    (Bool × Bool) × OState :=
  match mapFind? s.storageClasses scName with
  | none => ((false, true), s)
  | some sc =>
    if !storeOk then ((true, false), s)
    else
      let s1 := { s with
        store := { s.store with storageClasses := mapErase s.store.storageClasses scName },
        storageClasses := mapErase s.storageClasses scName }
      ((true, true),
       sc.members.foldl (fun st m =>
         { st with backends := (mapModify st.backends m.backendName (fun b =>
             { b with storage := (mapModify b.storage m.poolName (fun p =>
                 { p with storageClasses := p.storageClasses.filter (fun n => n != scName) })) })) })
         s1)

/-! ## Bootstrap (lines 48-205) -/

/-- An error surfaced by a bootstrap step.  The Go code recognizes a
`persistent_store.KeyError` by comparing `err.Error()` against
`KeyErrorMsg` and then type-asserting; the two constructors embed that
distinction. -/
inductive BootErr where
  | keyError (key : String)
  | other (msg : String)
deriving DecidableEq

/-- Whether an error is the persistent store's key-not-found error. -/
def BootErr.isKeyError : BootErr → Bool
  | .keyError _ => true
  | .other _ => false

/-- The step loop of `tridentOrchestrator.bootstrap` (lines 175-189),
applied to the results of the four bootstrap steps in order (backends,
storage classes, volumes, volume transactions): a `KeyError` is logged and
skipped, any other error aborts with that error, and `none` means the loop
reached the garbage-collection phase. -/
def bootstrapStepLoop : List (Option BootErr) → Option BootErr
  | [] => none
  | none :: rest => bootstrapStepLoop rest
  | some e :: rest => if e.isKeyError then bootstrapStepLoop rest else some e

/-- The outcome of the bootstrap step sequence for given results of the
four steps. -/
def bootstrapStepsOutcome (backends scs volumes txns : Option BootErr) : Option BootErr :=
  bootstrapStepLoop [backends, scs, volumes, txns]

/-- The garbage-collection loop at the end of `bootstrap` (lines 193-202),
iterating over a snapshot of the backend map: every offline backend
without volumes is deleted from memory and then from the store; a store
failure aborts bootstrap. -/
def gcGo (delOk : String → Bool) :
    List (String × Backend) → OState → Option BootErr × OState
  | [], s => (none, s)
  | (n, b) :: rest, s =>
    if !b.online && !b.hasVolumes then
      let s1 := { s with backends := mapErase s.backends n }
      if delOk n then
        gcGo delOk rest
          { s1 with store := { s1.store with backends := mapErase s1.store.backends n } }
      else (some (.other "Failed to delete empty offline backend"), s1)
    else gcGo delOk rest s

/-- The backend garbage collection that completes `bootstrap`. -/
def bootstrapGC (s : OState) (delOk : String → Bool) : Option BootErr × OState :=
  gcGo delOk s.backends s

/-! ## bootstrapBackends retry loop (lines 64-81) -/

/-- The result of one `storeClient.GetBackends` call: success with the
persisted records (name and online flag), the context deadline-exceeded
error, or any other error. -/
inductive GBRes where
  | ok (backends : List (String × Bool))
  | deadlineExceeded
  | fail (msg : String)
deriving DecidableEq

/-- The retry loop of `bootstrapBackends`: `calls i` is the result of the
`i`-th `GetBackends` call.  The loop keeps the Go loop variable `tries`;
each iteration sleeps one second and re-issues the call, and it runs while
the last result is `DeadlineExceeded` and `tries < max`.  The fuel
argument equals `max - tries`, so the guard `tries < max` is exactly fuel
positivity.  Returns the final `tries` (which is also the number of sleeps
and retries performed) and the final result. -/
def retryGo (calls : Nat → GBRes) : Nat → Nat → GBRes → Nat × GBRes
  | fuel + 1, tries, .deadlineExceeded => retryGo calls fuel (tries + 1) (calls (tries + 1))
  | 0, tries, res => (tries, res)
  | _ + 1, tries, res => (tries, res)

/-- The `GetBackends`-with-retry phase of `bootstrapBackends` (lines
66-72): one initial call, then the retry loop bounded by
`config.MaxBootstrapAttempts` (passed in as `max`; its value lives in the
external config package). -/
def bootstrapBackendsRetry (calls : Nat → GBRes) (max : Nat) : Nat × GBRes :=
  retryGo calls max 0 (calls 0)

/-- The error handling after the loop (lines 74-81): fail with the store's
error if the last result is an error, otherwise proceed with the returned
backends. -/
def bootstrapBackendsOutcome (calls : Nat → GBRes) (max : Nat) :
    Except GBRes (List (String × Bool)) :=
  match (bootstrapBackendsRetry calls max).2 with
  | .ok bs => .ok bs
  | r => .error r

/-! ## The public-operation transition system (for the registry invariant) -/

/-- One public mutating operation together with the behaviour of the
external calls it will make.  Snapshot reads do not change the state and
are omitted. -/
inductive Op where
  | addBackend (cfg : BackendConfig) (storeOk : Bool)
  | offlineBackend (name : String) (storeOk : Bool)
  | addVolume (cfg : VolumeConfig) (o : AVOracles)
  | deleteVolume (name : String) (o : DelOracles)
  | addStorageClass (cfg : SCConfig) (storeOk : Bool)
  | deleteStorageClass (name : String) (storeOk : Bool)

/-- Applying one operation to the state. -/
def Op.apply (s : OState) : Op → OState
  | .addBackend cfg ok => (AddStorageBackend s ok cfg).2
  | .offlineBackend n ok => (OfflineBackend s ok n).2
  | .addVolume cfg o => (AddVolume s o cfg).2
  | .deleteVolume n o => (DeleteVolume s o n).2
  | .addStorageClass c ok => (AddStorageClass s ok c).2
  | .deleteStorageClass n ok => (DeleteStorageClass s ok n).2

/-- Applying a sequence of operations in order. -/
def applyOps (s : OState) : List Op → OState
  | [] => s
  | op :: rest => applyOps (op.apply s) rest

/-- Every persistent-store call the operation makes succeeds (driver calls
may still fail arbitrarily). -/
def Op.storeSafe : Op → Prop
  | .addBackend _ ok => ok = true
  | .offlineBackend _ ok => ok = true
  | .addVolume _ o =>
      o.getTxnOk = true ∧ o.addTxnOk = true ∧ o.storeAddOk = true ∧ o.deleteTxnOk = true ∧
      o.rb.deleteTxnOk = true ∧ o.rb.dv.storeDeleteVolumeOk = true ∧
      o.rb.dv.storeDeleteBackendOk = true
  | .deleteVolume _ o =>
      o.addTxnOk = true ∧ o.deleteTxnOk = true ∧
      o.dv.storeDeleteVolumeOk = true ∧ o.dv.storeDeleteBackendOk = true
  | .addStorageClass _ ok => ok = true
  | .deleteStorageClass _ ok => ok = true

/-- Spec invariant 3 on the in-memory registry: every backend present is
online or holds at least one volume in some pool. -/
def RegistryInv (s : OState) : Prop :=
  ∀ p ∈ s.backends, p.2.online = true ∨ p.2.hasVolumes = true

instance (s : OState) : Decidable (RegistryInv s) := by
  unfold RegistryInv; infer_instance

/-! ## Claim C2 -/

theorem bootstrapStepLoop_eq (rs : List (Option BootErr)) :
    bootstrapStepLoop rs = (rs.filterMap id).find? (fun e => !e.isKeyError) := by
  induction rs with
  | nil => rfl
  | cons a rest ih =>
    cases a with
    | none => simpa [bootstrapStepLoop, List.filterMap_cons] using ih
    | some e =>
      by_cases hk : e.isKeyError = true
      · rw [bootstrapStepLoop, if_pos hk, ih, List.filterMap_cons]
        simp only [id]
        rw [List.find?_cons_of_neg]
        simp [hk]
      · rw [bootstrapStepLoop, if_neg hk, List.filterMap_cons]
        simp only [id]
        rw [List.find?_cons_of_pos]
        simp [hk]

/-- Claim C2: during bootstrap, a `KeyError` returned by any of the four
steps (backends, storage classes, volumes, transactions) is skipped and
bootstrap continues with the remaining steps, while the first error that
is not a `KeyError` aborts bootstrap with exactly that error: the step
loop's outcome is the first non-`KeyError` error among the step results,
and `none` (continue to garbage collection) when every error raised is a
`KeyError`. -/
theorem c2_bootstrap_key_error_routing (rb rsc rv rt : Option BootErr) :
    bootstrapStepsOutcome rb rsc rv rt
      = ([rb, rsc, rv, rt].filterMap id).find? (fun e => !e.isKeyError) :=
  bootstrapStepLoop_eq [rb, rsc, rv, rt]

/-! ## Claim C9 -/

theorem retryGo_all_deadline (calls : Nat → GBRes) :
    ∀ fuel tries, (∀ i, tries ≤ i → i ≤ tries + fuel → calls i = .deadlineExceeded) →
    retryGo calls fuel tries .deadlineExceeded = (tries + fuel, .deadlineExceeded) := by
  intro fuel
  induction fuel with
  | zero => intro tries _; rfl
  | succ f ih =>
    intro tries h
    have hnext : calls (tries + 1) = .deadlineExceeded :=
      h (tries + 1) (by omega) (by omega)
    rw [retryGo, hnext, ih (tries + 1) (fun i h1 h2 => h i (by omega) (by omega))]
    have ha : tries + 1 + f = tries + (f + 1) := by omega
    rw [ha]

theorem retryGo_first_success (calls : Nat → GBRes) :
    ∀ fuel tries j, tries ≤ j → j ≤ tries + fuel →
    (∀ i, tries ≤ i → i < j → calls i = .deadlineExceeded) →
    calls j ≠ .deadlineExceeded →
    retryGo calls fuel tries (calls tries) = (j, calls j) := by
  intro fuel
  induction fuel with
  | zero =>
    intro tries j h1 h2 _ hne
    have hj : j = tries := by omega
    subst hj
    cases hc : calls j with
    | ok bs => rfl
    | deadlineExceeded => exact absurd hc hne
    | fail m => rfl
  | succ f ih =>
    intro tries j h1 h2 hbefore hne
    cases hc : calls tries with
    | deadlineExceeded =>
      have htj : tries ≠ j := fun hh => hne (hh ▸ hc)
      have htlt : tries < j := lt_of_le_of_ne h1 htj
      rw [retryGo]
      have : calls (tries + 1) = calls (tries + 1) := rfl
      exact ih (tries + 1) j (by omega) (by omega)
        (fun i ha hb => hbefore i (by omega) hb) hne
    | ok bs =>
      have hj : j = tries := by
        by_contra hh
        have : tries < j := lt_of_le_of_ne h1 (fun he => hh he.symm)
        have := hbefore tries (le_refl _) this
        rw [hc] at this
        exact GBRes.noConfusion this
      subst hj
      rw [hc]
      rfl
    | fail m =>
      have hj : j = tries := by
        by_contra hh
        have : tries < j := lt_of_le_of_ne h1 (fun he => hh he.symm)
        have := hbefore tries (le_refl _) this
        rw [hc] at this
        exact GBRes.noConfusion this
      subst hj
      rw [hc]
      rfl

/-- Claim C9: the backend-loading step of bootstrap retries `GetBackends`
(sleeping one second per retry, counted by the returned `tries` value)
only while the store reports `DeadlineExceeded`, performing at most `max`
retries after the initial call; if every call up to the retry bound
reports `DeadlineExceeded` it fails with that store error after exactly
`max` retries, and as soon as some call returns a different result while
all earlier calls reported `DeadlineExceeded`, the loop stops there:
backend loading proceeds with the returned backends on success and fails
with the store's error on any other error. -/
theorem c9_bootstrap_backends_retry (calls : Nat → GBRes) (max : Nat) :
    ((∀ i ∈ List.range (max + 1), calls i = .deadlineExceeded) →
      bootstrapBackendsRetry calls max = (max, .deadlineExceeded) ∧
      bootstrapBackendsOutcome calls max = .error .deadlineExceeded) ∧
    (∀ j, j ≤ max → (∀ i ∈ List.range j, calls i = .deadlineExceeded) →
      calls j ≠ .deadlineExceeded →
      bootstrapBackendsRetry calls max = (j, calls j) ∧
      (∀ bs, calls j = .ok bs → bootstrapBackendsOutcome calls max = .ok bs) ∧
      (∀ m, calls j = .fail m → bootstrapBackendsOutcome calls max = .error (.fail m))) := by
  constructor
  · intro hall
    have h0 : calls 0 = .deadlineExceeded := hall 0 (by simp)
    have hres : bootstrapBackendsRetry calls max = (max, .deadlineExceeded) := by
      rw [bootstrapBackendsRetry, h0]
      simpa using retryGo_all_deadline calls max 0
        (fun i h1 h2 => hall i (by simp [List.mem_range]; omega))
    refine ⟨hres, ?_⟩
    rw [bootstrapBackendsOutcome, hres]
  · intro j hj hbefore hne
    have hres : bootstrapBackendsRetry calls max = (j, calls j) := by
      rw [bootstrapBackendsRetry]
      have h0 : calls 0 = calls 0 := rfl
      exact retryGo_first_success calls max 0 j (Nat.zero_le j) (by omega)
        (fun i _ hi => hbefore i (List.mem_range.mpr hi)) hne
    refine ⟨hres, ?_, ?_⟩
    · intro bs hok
      rw [bootstrapBackendsOutcome, hres, hok]
    · intro m hfail
      rw [bootstrapBackendsOutcome, hres, hfail]

/-- A concrete run for claim C9: the store reports `DeadlineExceeded`
twice and then succeeds; the loop retries exactly twice and proceeds with
the returned backends. -/
def c9calls : Nat → GBRes := fun i =>
  if i < 2 then .deadlineExceeded else .ok [("b1", true)]

theorem c9_witness :
    (2 ≤ 10 ∧ (∀ i ∈ List.range 2, c9calls i = .deadlineExceeded) ∧
      c9calls 2 ≠ .deadlineExceeded) ∧
    bootstrapBackendsRetry c9calls 10 = (2, c9calls 2) ∧
    bootstrapBackendsOutcome c9calls 10 = .ok [("b1", true)] :=
  ⟨⟨by decide, by decide, by decide⟩,
   ((c9_bootstrap_backends_retry c9calls 10).2 2 (by decide) (by decide) (by decide)).1,
   ((c9_bootstrap_backends_retry c9calls 10).2 2 (by decide) (by decide) (by decide)).2.1
     [("b1", true)] (by decide)⟩

/-! ## Claim C10 -/

/-- Claim C10: when `DeleteVolume` succeeds at the backend and store
deletions but then fails to delete the write-ahead `DeleteVolume`
transaction, it reinserts the volume into the in-memory catalog and still
returns `(found = true, err = nil)`: the caller observes success while the
volume remains in the catalog and the transaction remains in the store. -/
theorem c10_delete_txn_failure_observed_success (s : OState) (o : DelOracles) (name : String)
    (vol : Volume) (b : Backend)
    (hvol : mapFind? s.volumes name = some vol)
    (hb : mapFind? s.backends vol.backendName = some b)
    (honline : b.online = true)
    (haddTxn : o.addTxnOk = true)
    (hrm : o.dv.removeVolumeOk = true)
    (hsd : o.dv.storeDeleteVolumeOk = true)
    (hdt : o.deleteTxnOk = false) :
    (DeleteVolume s o name).1 = (true, none) ∧
    mapFind? (DeleteVolume s o name).2.volumes name = some vol ∧
    mapFind? (DeleteVolume s o name).2.store.volTxns name
      = some { op := .deleteVolume, config := vol.config } := by
  have honline1 : (b.removeVolume name vol.poolName).online = true := honline
  simp only [DeleteVolume, deleteVolume, hvol, haddTxn, hrm, hsd, hdt, hb, honline1,
    Bool.not_true, Bool.false_and, Bool.not_false, ite_false, ite_true]
  refine ⟨rfl, ?_, ?_⟩
  · exact mapFind?_insert_self _ _ _
  · exact mapFind?_insert_self _ _ _

/-- Concrete data exercising claim C10. -/
def c10cfg : VolumeConfig := ⟨"v1", "1Gi", "gold", .file, .readWriteOnce, 1⟩

/-- Concrete volume for the C10 witness. -/
def c10vol : Volume := ⟨c10cfg, "b1", "p1"⟩

/-- Concrete backend for the C10 witness. -/
def c10backend : Backend :=
  ⟨"b1", .file, true, "trident_", [("p1", ⟨"p1", [], [], [("v1", c10cfg)]⟩)]⟩

/-- Concrete orchestrator state for the C10 witness. -/
def c10state : OState :=
  ⟨[("b1", c10backend)], [("v1", c10vol)], [],
   ⟨[("b1", true)], [("v1", c10cfg)], [], []⟩, true⟩

/-- Concrete oracles for the C10 witness: every call succeeds except the
final transaction deletion. -/
def c10oracles : DelOracles := ⟨⟨true, true, true⟩, true, false⟩

theorem c10_witness :
    (mapFind? c10state.volumes "v1" = some c10vol ∧
     mapFind? c10state.backends c10vol.backendName = some c10backend ∧
     c10backend.online = true ∧ c10oracles.addTxnOk = true ∧
     c10oracles.dv.removeVolumeOk = true ∧ c10oracles.dv.storeDeleteVolumeOk = true ∧
     c10oracles.deleteTxnOk = false) ∧
    (DeleteVolume c10state c10oracles "v1").1 = (true, none) ∧
    mapFind? (DeleteVolume c10state c10oracles "v1").2.volumes "v1" = some c10vol ∧
    mapFind? (DeleteVolume c10state c10oracles "v1").2.store.volTxns "v1"
      = some { op := .deleteVolume, config := c10vol.config } :=
  ⟨⟨by decide, by decide, by decide, by decide, by decide, by decide, by decide⟩,
   c10_delete_txn_failure_observed_success c10state c10oracles "v1" c10vol c10backend
     (by decide) (by decide) (by decide) (by decide) (by decide) (by decide) (by decide)⟩

/-! ## Claim C4 -/

theorem destroyAll_all_ok (destroyOk : String → Bool) (volName : String) :
    ∀ (l : List (String × Backend)) (acc : List (String × String)),
    (∀ p ∈ l, p.2.online = true → destroyOk p.1 = true) →
    destroyAll destroyOk volName l acc
      = (none, acc ++ (l.filter (fun p => p.2.online)).map
          (fun p => (p.1, p.2.internalName volName))) := by
  intro l
  induction l with
  | nil => intro acc _; simp [destroyAll]
  | cons a rest ih =>
    obtain ⟨n, b⟩ := a
    intro acc h
    by_cases ho : b.online = true
    · have hd := h (n, b) (by simp) ho
      rw [destroyAll]
      simp only [ho, Bool.not_true, ite_false, hd, ite_true]
      rw [ih (acc ++ [(n, b.internalName volName)])
        (fun p hp hon => h p (List.mem_cons_of_mem _ hp) hon)]
      simp [List.filter_cons, ho]
    · have ho' : b.online = false := by
        cases hb : b.online
        · rfl
        · exact absurd hb ho
      rw [destroyAll]
      simp only [ho', Bool.not_false, ite_true]
      rw [ih acc (fun p hp hon => h p (List.mem_cons_of_mem _ hp) hon)]
      simp [List.filter_cons, ho']

/-- Claim C4: rolling back an `AddVolume` transaction whose volume name is
not in the in-memory catalog calls `Driver.Destroy` with the
backend-internal volume name on every online backend and on no offline
backend (the destroy-call log is exactly the online sublist of the
registry, in order, each paired with its internal name), and when all
those destroys succeed it deletes the transaction from the persistent
store and reports no error, leaving the rest of the state unchanged. -/
theorem c4_rollback_add_txn_destroys_online (s : OState) (o : RBOracles) (txn : VolTxn)
    (hop : txn.op = .addVolume)
    (habsent : mapFind? s.volumes txn.config.name = none)
    (hdestroy : ∀ p ∈ s.backends, p.2.online = true → o.destroyOk p.1 = true)
    (htxn : o.deleteTxnOk = true) :
    (rollBackTransaction s o txn).2
      = (s.backends.filter (fun p => p.2.online)).map
          (fun p => (p.1, p.2.internalName txn.config.name)) ∧
    (rollBackTransaction s o txn).1.1 = none ∧
    (rollBackTransaction s o txn).1.2
      = { s with store :=
            { s.store with volTxns := mapErase s.store.volTxns txn.config.name } } := by
  rw [rollBackTransaction, hop]
  rw [destroyAll_all_ok o.destroyOk txn.config.name s.backends [] hdestroy]
  simp [habsent, rbFinish, htxn]

/-- Concrete state for the C4 witness: one online backend, one offline
backend, a stale add transaction for a volume absent from the catalog. -/
def c4state : OState :=
  ⟨[("b1", ⟨"b1", .file, true, "trident_", [("p1", ⟨"p1", [], [], []⟩)]⟩),
    ("b2", ⟨"b2", .block, false, "net_", [("q1", ⟨"q1", [], [], [("w1", ⟨"w1", "1Gi", "gold", .block, .readWriteOnce, 1⟩)]⟩)]⟩)],
   [], [],
   ⟨[("b1", true), ("b2", false)], [],  [], [("v2", ⟨.addVolume, ⟨"v2", "1Gi", "gold", .any, .readWriteOnce, 1⟩⟩)]⟩, true⟩

/-- The stale transaction rolled back in the C4 witness. -/
def c4txn : VolTxn := ⟨.addVolume, ⟨"v2", "1Gi", "gold", .any, .readWriteOnce, 1⟩⟩

/-- Oracles for the C4 witness: every destroy and the transaction
deletion succeed. -/
def c4oracles : RBOracles := ⟨fun _ => true, ⟨true, true, true⟩, true⟩

theorem c4_witness :
    (c4txn.op = .addVolume ∧
     mapFind? c4state.volumes c4txn.config.name = none ∧
     (∀ p ∈ c4state.backends, p.2.online = true → c4oracles.destroyOk p.1 = true) ∧
     c4oracles.deleteTxnOk = true) ∧
    (rollBackTransaction c4state c4oracles c4txn).2 = [("b1", "trident_v2")] ∧
    (rollBackTransaction c4state c4oracles c4txn).1.1 = none ∧
    mapFind? (rollBackTransaction c4state c4oracles c4txn).1.2.store.volTxns "v2" = none := by
  have h := c4_rollback_add_txn_destroys_online c4state c4oracles c4txn
    (by decide) (by decide) (by decide) (by decide)
  refine ⟨⟨by decide, by decide, by decide, by decide⟩, ?_, h.2.1, ?_⟩
  · rw [h.1]; decide
  · rw [h.2.2]; decide

/-! ## Claim C8 -/

/-- Claim C8: if `DeleteVolume` is called on the last volume of an offline
backend and every deletion step succeeds, then afterwards the call
reports success, the backend is gone from the in-memory registry and from
the persistent store, and the volume is gone from the catalog, the store,
and the transaction log. -/
theorem c8_offline_last_volume_delete (s : OState) (o : DelOracles) (name : String)
    (vol : Volume) (b : Backend)
    (hvol : mapFind? s.volumes name = some vol)
    (hb : mapFind? s.backends vol.backendName = some b)
    (hoffline : b.online = false)
    (hlast : (b.removeVolume name vol.poolName).hasVolumes = false)
    (haddTxn : o.addTxnOk = true) (hrm : o.dv.removeVolumeOk = true)
    (hsd : o.dv.storeDeleteVolumeOk = true) (hdb : o.dv.storeDeleteBackendOk = true)
    (hdt : o.deleteTxnOk = true) :
    (DeleteVolume s o name).1 = (true, none) ∧
    mapFind? (DeleteVolume s o name).2.backends vol.backendName = none ∧
    mapFind? (DeleteVolume s o name).2.store.backends vol.backendName = none ∧
    mapFind? (DeleteVolume s o name).2.volumes name = none ∧
    mapFind? (DeleteVolume s o name).2.store.volumes name = none ∧
    mapFind? (DeleteVolume s o name).2.store.volTxns name = none := by
  have hoffline1 : (b.removeVolume name vol.poolName).online = false := hoffline
  simp only [DeleteVolume, deleteVolume, hvol, haddTxn, hrm, hsd, hdb, hdt, hb,
    hoffline1, hlast, Bool.not_true, Bool.not_false, Bool.true_and, ite_false, ite_true]
  refine ⟨rfl, ?_, ?_, ?_, ?_, ?_⟩
  · exact mapFind?_erase_self _ _
  · exact mapFind?_erase_self _ _
  · exact mapFind?_erase_self _ _
  · exact mapFind?_erase_self _ _
  · exact mapFind?_erase_self _ _

/-- Concrete state for the C8 witness: one offline backend holding a
single volume. -/
def c8cfg : VolumeConfig := ⟨"v1", "1Gi", "gold", .file, .readWriteOnce, 1⟩

/-- Concrete volume for the C8 witness. -/
def c8vol : Volume := ⟨c8cfg, "b1", "p1"⟩

/-- Concrete backend for the C8 witness. -/
def c8backend : Backend :=
  ⟨"b1", .file, false, "trident_", [("p1", ⟨"p1", [], [], [("v1", c8cfg)]⟩)]⟩

/-- Concrete orchestrator state for the C8 witness. -/
def c8state : OState :=
  ⟨[("b1", c8backend)], [("v1", c8vol)], [],
   ⟨[("b1", false)], [("v1", c8cfg)], [], []⟩, true⟩

/-- Oracles for the C8 witness: every external call succeeds. -/
def c8oracles : DelOracles := ⟨⟨true, true, true⟩, true, true⟩

theorem c8_witness :
    (mapFind? c8state.volumes "v1" = some c8vol ∧
     mapFind? c8state.backends c8vol.backendName = some c8backend ∧
     c8backend.online = false ∧
     (c8backend.removeVolume "v1" c8vol.poolName).hasVolumes = false) ∧
    (DeleteVolume c8state c8oracles "v1").1 = (true, none) ∧
    mapFind? (DeleteVolume c8state c8oracles "v1").2.backends c8vol.backendName = none ∧
    mapFind? (DeleteVolume c8state c8oracles "v1").2.store.backends c8vol.backendName = none ∧
    mapFind? (DeleteVolume c8state c8oracles "v1").2.volumes "v1" = none ∧
    mapFind? (DeleteVolume c8state c8oracles "v1").2.store.volumes "v1" = none ∧
    mapFind? (DeleteVolume c8state c8oracles "v1").2.store.volTxns "v1" = none :=
  ⟨⟨by decide, by decide, by decide, by decide⟩,
   c8_offline_last_volume_delete c8state c8oracles "v1" c8vol c8backend
     (by decide) (by decide) (by decide) (by decide) (by decide) (by decide)
     (by decide) (by decide) (by decide)⟩

/-! ## Claim C1 -/

/-- The failing input for claim C1: a request with `Protocol = Any` and
`AccessMode = ReadOnlyMany`, whose effective protocol is `File`. -/
def c1cfg : VolumeConfig := ⟨"v1", "1Gi", "gold", .any, .readOnlyMany, 1⟩

/-- A storage-class member backed by a `Block` backend. -/
def c1member : PoolRef := ⟨"bBlock", "p1", .block⟩

/-- A storage class whose only member pool is on a `Block` backend. -/
def c1sc : StorageClass := ⟨"gold", [], [c1member]⟩

/-- The `Block` backend hosting the only member pool. -/
def c1backend : Backend := ⟨"bBlock", .block, true, "trident_", [("p1", ⟨"p1", [], ["gold"], []⟩)]⟩

/-- Orchestrator state for the C1 run. -/
def c1state : OState :=
  ⟨[("bBlock", c1backend)], [], [("gold", c1sc)], ⟨[("bBlock", true)], [], [], []⟩, true⟩

/-- Oracles for the C1 run: the store behaves, the driver rejects the
create so the attempted backend shows up in the aggregated error. -/
def c1oracles : AVOracles :=
  ⟨true, ⟨fun _ => true, ⟨true, true, true⟩, true⟩, true,
   fun _ _ => some "boom", true, true, true, [0]⟩

/-- Claim C1 (code bug in `AddVolume`): lines 511-514 derive the
effective protocol from the access mode, but line 515 passes the original
`volumeConfig.Protocol` to `GetStoragePoolsForProtocol`, so the derived
protocol is a dead store.  At the failing input (`Protocol = Any`,
`AccessMode = ReadOnlyMany`) the effective protocol is `File`, the pools
the spec prescribes exclude the `Block`-backend member, yet the code
considers exactly that member and `AddVolume` goes on to attempt the
`Block` backend. -/
theorem c1_effective_protocol_dead_store :
    addVolumeEffectiveProtocol c1cfg = .file ∧
    addVolumePlacementPools c1sc c1cfg = [c1member] ∧
    specPlacementPools c1sc c1cfg = [] ∧
    addVolumePlacementPools c1sc c1cfg ≠ specPlacementPools c1sc c1cfg ∧
    (AddVolume c1state c1oracles c1cfg).1
      = .err (some (.allBackendsFailed [⟨"v1", "p1", "bBlock", "boom"⟩])) false false := by
  refine ⟨by decide, by decide, by decide, by decide, ?_⟩
  decide

/-! ## Claim C6 -/

/-- Claim C6: `AddStorageBackend` on an existing backend name fails with
an `InvalidUpdate` error whenever the new configuration changes the
backend's protocol or omits a pool of the old backend that holds at least
one volume, and on such a failure the entire state — backends, pools,
volumes, storage-class memberships, and the persistent store — is
returned unchanged. -/
theorem c6_invalid_update_rejected (s : OState) (cfg : BackendConfig) (old : Backend)
    (storeOk : Bool)
    (hold : mapFind? s.backends cfg.name = some old)
    (hbad : old.protocol ≠ cfg.protocol
          ∨ ∃ pp ∈ old.storage, pp.2.volumes.isEmpty = false ∧
              mapFind? (factoryBackend cfg).storage pp.1 = none) :
    validateBackendUpdate s.storageClasses old (factoryBackend cfg) ≠ [] ∧
    AddStorageBackend s storeOk cfg
      = (some (.invalidUpdate (validateBackendUpdate s.storageClasses old (factoryBackend cfg))), s) := by
  have hnb : (factoryBackend cfg).name = cfg.name := rfl
  have hproto : (factoryBackend cfg).protocol = cfg.protocol := rfl
  have hne : validateBackendUpdate s.storageClasses old (factoryBackend cfg) ≠ [] := by
    rcases hbad with hp | ⟨pp, hmem, hnonempty, hmissing⟩
    · rw [validateBackendUpdate]
      rw [hproto] at *
      simp only [ne_eq, hp, not_false_iff, ite_true]
      intro hcontra
      exact List.cons_ne_nil _ _ (List.append_eq_nil.mp (List.append_eq_nil.mp hcontra).1).1
    · apply List.ne_nil_of_mem (a := UpdateErr.missingUsedPool pp.1)
      rw [validateBackendUpdate]
      refine List.mem_append.mpr (Or.inl (List.mem_append.mpr (Or.inr ?_)))
      refine List.mem_filterMap.mpr ⟨pp, List.mem_filter.mpr ⟨hmem, ?_⟩, ?_⟩
      · simp [hnonempty]
      · simp [hmissing]
  refine ⟨hne, ?_⟩
  rw [AddStorageBackend]
  rw [hnb, hold]
  simp only [List.isEmpty_eq_true]
  rw [if_neg hne]

/-- Old backend for the C6 witness: pools `a` (one volume) and `b`. -/
def c6old : Backend :=
  ⟨"bU", .file, true, "trident_",
   [("a", ⟨"a", [], [], [("v1", ⟨"v1", "1Gi", "gold", .file, .readWriteOnce, 1⟩)]⟩),
    ("b", ⟨"b", [], [], []⟩)]⟩

/-- New configuration for the C6 witness: same protocol, but pool `a`
(which holds a volume) is dropped. -/
def c6cfg : BackendConfig := ⟨"bU", .file, "trident_", [⟨"b", []⟩]⟩

/-- Orchestrator state for the C6 witness. -/
def c6state : OState :=
  ⟨[("bU", c6old)],
   [("v1", ⟨⟨"v1", "1Gi", "gold", .file, .readWriteOnce, 1⟩, "bU", "a"⟩)],
   [], ⟨[("bU", true)], [("v1", ⟨"v1", "1Gi", "gold", .file, .readWriteOnce, 1⟩)], [], []⟩, true⟩

theorem c6_witness :
    (mapFind? c6state.backends c6cfg.name = some c6old ∧
     (("a", ⟨"a", [], [], [("v1", ⟨"v1", "1Gi", "gold", .file, .readWriteOnce, 1⟩)]⟩) : String × Pool) ∈ c6old.storage ∧
     mapFind? (factoryBackend c6cfg).storage "a" = none) ∧
    validateBackendUpdate c6state.storageClasses c6old (factoryBackend c6cfg) ≠ [] ∧
    AddStorageBackend c6state true c6cfg
      = (some (.invalidUpdate (validateBackendUpdate c6state.storageClasses c6old (factoryBackend c6cfg))), c6state) :=
  ⟨⟨by decide, by decide, by decide⟩,
   c6_invalid_update_rejected c6state c6cfg c6old true (by decide)
     (Or.inr ⟨("a", ⟨"a", [], [], [("v1", ⟨"v1", "1Gi", "gold", .file, .readWriteOnce, 1⟩)]⟩),
       by decide, by decide, by decide⟩)⟩

/-! ## Claim C7 -/

theorem mapFind?_map_key_preserving {α β : Type} (f : String × α → String × α)
    (hkey : ∀ p, (f p).1 = p.1) (proj : α → β) (hproj : ∀ p, proj (f p).2 = proj p.2)
    (l : SMap α) (k : String) :
    (mapFind? (l.map f) k).map proj = (mapFind? l k).map proj := by
  induction l with
  | nil => rfl
  | cons a t ih =>
    by_cases hk : a.1 = k
    · have h1 : (f a).1 = k := by rw [hkey a, hk]
      simp [mapFind?_cons, h1, hk, hproj a]
    · have h1 : ¬((f a).1 = k) := by rw [hkey a]; exact hk
      simpa [mapFind?_cons, h1, hk] using ih

theorem checkAndAddBackend_storage_volumes (sc : StorageClass) (b : Backend) (pn : String) :
    (mapFind? (checkAndAddBackend sc b).2.storage pn).map Pool.volumes
      = (mapFind? b.storage pn).map Pool.volumes := by
  have h : (checkAndAddBackend sc b).2.storage
      = b.storage.map (fun p =>
          if sc.matchesPool p.2
          then (p.1, { p.2 with storageClasses := p.2.storageClasses ++ [sc.name] })
          else p) := rfl
  rw [h]
  apply mapFind?_map_key_preserving
  · intro p; by_cases hm : sc.matchesPool p.2 <;> simp [hm]
  · intro p; by_cases hm : sc.matchesPool p.2 <;> simp [hm]

theorem scLoop_storage_volumes (scs : SMap StorageClass) (old? : Option Backend)
    (nb : Backend) (pn : String) :
    (mapFind? (scLoop scs old? nb).2.storage pn).map Pool.volumes
      = (mapFind? nb.storage pn).map Pool.volumes := by
  induction scs generalizing nb with
  | nil => rfl
  | cons a rest ih =>
    obtain ⟨n, sc⟩ := a
    cases old? with
    | none =>
      have h2 : (scLoop ((n, sc) :: rest) none nb).2
          = (scLoop rest none (checkAndAddBackend sc nb).2).2 := rfl
      rw [h2, ih, checkAndAddBackend_storage_volumes]
    | some old =>
      have h2 : (scLoop ((n, sc) :: rest) (some old) nb).2
          = (scLoop rest (some old)
              (checkAndAddBackend (sc.removePoolsForBackend old.name) nb).2).2 := rfl
      rw [h2, ih, checkAndAddBackend_storage_volumes]

theorem foldl_modify_find?_not_mem (pn : String) :
    ∀ (l : List (String × Pool)), pn ∉ l.map Prod.fst → ∀ st : SMap Pool,
    mapFind? (l.foldl (fun st pPair =>
      mapModify st pPair.1 (poolAddVolumes pPair.2.volumes)) st) pn = mapFind? st pn := by
  intro l
  induction l with
  | nil => intro _ st; rfl
  | cons a t ih =>
    intro h st
    have h1 : pn ≠ a.1 ∧ pn ∉ t.map Prod.fst := by
      simpa [not_or] using h
    rw [List.foldl_cons, ih h1.2, mapFind?_modify_ne _ _ _ _ h1.1]

theorem foldl_modify_find?_mem (pn : String) (p : Pool) :
    ∀ (l : List (String × Pool)), (pn, p) ∈ l → (l.map Prod.fst).Nodup →
    ∀ st : SMap Pool,
    mapFind? (l.foldl (fun st pPair =>
      mapModify st pPair.1 (poolAddVolumes pPair.2.volumes)) st) pn
      = (mapFind? st pn).map (poolAddVolumes p.volumes) := by
  intro l
  induction l with
  | nil => intro h; cases h
  | cons a t ih =>
    intro hmem hnodup st
    rw [List.map_cons] at hnodup
    have hnd := List.nodup_cons.mp hnodup
    rcases List.mem_cons.mp hmem with heq | hmem'
    · subst heq
      rw [List.foldl_cons, foldl_modify_find?_not_mem pn t hnd.1,
        mapFind?_modify_self]
    · have hpn : pn ∈ t.map Prod.fst :=
        List.mem_map.mpr ⟨(pn, p), hmem', rfl⟩
      have hne : pn ≠ a.1 := fun he => hnd.1 (he ▸ hpn)
      rw [List.foldl_cons, ih hmem' hnd.2, mapFind?_modify_ne _ _ _ _ hne]

theorem poolAddVolumes_find?_not_mem (vn : String) :
    ∀ (vols : SMap VolumeConfig), vn ∉ vols.map Prod.fst → ∀ pl : Pool,
    mapFind? (poolAddVolumes vols pl).volumes vn = mapFind? pl.volumes vn := by
  intro vols
  induction vols with
  | nil => intro _ pl; rfl
  | cons a t ih =>
    intro h pl
    have h1 : vn ≠ a.1 ∧ vn ∉ t.map Prod.fst := by
      simpa [not_or] using h
    rw [poolAddVolumes, List.foldl_cons]
    rw [show (t.foldl (fun q v => { q with volumes := mapInsert q.volumes v.1 v.2 })
      { pl with volumes := mapInsert pl.volumes a.1 a.2 })
      = poolAddVolumes t { pl with volumes := mapInsert pl.volumes a.1 a.2 } from rfl]
    rw [ih h1.2]
    exact mapFind?_insert_ne _ _ _ _ h1.1

theorem poolAddVolumes_find?_mem (vn : String) (vc : VolumeConfig) :
    ∀ (vols : SMap VolumeConfig), (vn, vc) ∈ vols → (vols.map Prod.fst).Nodup →
    ∀ pl : Pool,
    mapFind? (poolAddVolumes vols pl).volumes vn = some vc := by
  intro vols
  induction vols with
  | nil => intro h; cases h
  | cons a t ih =>
    intro hmem hnodup pl
    rw [List.map_cons] at hnodup
    have hnd := List.nodup_cons.mp hnodup
    rw [poolAddVolumes, List.foldl_cons]
    rw [show (t.foldl (fun q v => { q with volumes := mapInsert q.volumes v.1 v.2 })
      { pl with volumes := mapInsert pl.volumes a.1 a.2 })
      = poolAddVolumes t { pl with volumes := mapInsert pl.volumes a.1 a.2 } from rfl]
    rcases List.mem_cons.mp hmem with heq | hmem'
    · subst heq
      rw [poolAddVolumes_find?_not_mem vn t hnd.1]
      exact mapFind?_insert_self _ _ _
    · exact ih hmem' hnd.2 _

theorem validate_used_pool_present (scs : SMap StorageClass) (old nb : Backend)
    (hval : validateBackendUpdate scs old nb = [])
    (pn : String) (p : Pool) (hmem : (pn, p) ∈ old.storage)
    (hne : p.volumes.isEmpty = false) :
    (mapFind? nb.storage pn).isSome = true := by
  by_contra h
  have hnone : mapFind? nb.storage pn = none := by
    cases hf : mapFind? nb.storage pn
    · rfl
    · rw [hf] at h; exact absurd rfl h
  have hmemErr : UpdateErr.missingUsedPool pn ∈ validateBackendUpdate scs old nb := by
    rw [validateBackendUpdate]
    refine List.mem_append.mpr (Or.inl (List.mem_append.mpr (Or.inr ?_)))
    refine List.mem_filterMap.mpr ⟨(pn, p), List.mem_filter.mpr ⟨hmem, ?_⟩, ?_⟩
    · simp [hne]
    · simp [hnone]
  rw [hval] at hmemErr
  cases hmemErr

/-- Claim C7: when `AddStorageBackend` updates an existing backend and
validation passes, every volume that existed on the old backend is
transferred into the same-named pool of the new backend object now held
in the registry, and the volume catalog's entries (the name references
that stand for the Go `vol.Backend`/`vol.Pool` pointers after rebinding)
are untouched, so resolving any transferred volume's backend and pool
names in the new state reaches the new backend object and the new pool
that contains it.  The `Nodup` hypotheses state that the Go maps have
distinct keys. -/
theorem c7_update_rebinds_volumes (s : OState) (cfg : BackendConfig) (old : Backend)
    (hold : mapFind? s.backends cfg.name = some old)
    (hval : validateBackendUpdate s.storageClasses old (factoryBackend cfg) = [])
    (hkeys : (old.storage.map Prod.fst).Nodup) :
    (AddStorageBackend s true cfg).1 = none ∧
    (AddStorageBackend s true cfg).2.volumes = s.volumes ∧
    ∀ pn p, (pn, p) ∈ old.storage → (p.volumes.map Prod.fst).Nodup →
    ∀ vn vc, (vn, vc) ∈ p.volumes →
    ∃ nb', mapFind? (AddStorageBackend s true cfg).2.backends cfg.name = some nb' ∧
      ∃ p', mapFind? nb'.storage pn = some p' ∧ mapFind? p'.volumes vn = some vc := by
  have hnb : (factoryBackend cfg).name = cfg.name := rfl
  have hrun : AddStorageBackend s true cfg
      = addBackendCommit s true (some old) (factoryBackend cfg) := by
    rw [AddStorageBackend, hnb, hold]
    simp [hval]
  have hcommit1 : (addBackendCommit s true (some old) (factoryBackend cfg)).1 = none := by
    simp [addBackendCommit, Bool.and_false]
  have hbackends : (addBackendCommit s true (some old) (factoryBackend cfg)).2.backends
      = mapModify
          (mapInsert (mapInsert s.backends cfg.name (factoryBackend cfg)) cfg.name
            (scLoop s.storageClasses (some old) (factoryBackend cfg)).2) cfg.name
          (fun nbx => { nbx with storage := (old.storage.foldl (fun st pPair =>
              mapModify st pPair.1 (poolAddVolumes pPair.2.volumes)) nbx.storage) }) := by
    simp [addBackendCommit, Bool.and_false, transferVolumes, hnb]
  have hvolumes : (addBackendCommit s true (some old) (factoryBackend cfg)).2.volumes
      = s.volumes := by
    simp [addBackendCommit, Bool.and_false, transferVolumes]
  refine ⟨by rw [hrun, hcommit1], by rw [hrun, hvolumes], ?_⟩
  intro pn p hmem hvnodup vn vc hvc
  rw [hrun, hbackends]
  set looped := (scLoop s.storageClasses (some old) (factoryBackend cfg)).2 with hlooped
  have hfound : mapFind?
      (mapInsert (mapInsert s.backends cfg.name (factoryBackend cfg)) cfg.name looped)
      cfg.name = some looped := mapFind?_insert_self _ _ _
  rw [mapFind?_modify_self, hfound]
  refine ⟨_, rfl, ?_⟩
  have hpe : p.volumes.isEmpty = false := by
    cases hv : p.volumes
    · rw [hv] at hvc; cases hvc
    · rfl
  have hfact : (mapFind? (factoryBackend cfg).storage pn).isSome = true :=
    validate_used_pool_present s.storageClasses old (factoryBackend cfg) hval pn p hmem hpe
  have hproj : (mapFind? looped.storage pn).map Pool.volumes
      = (mapFind? (factoryBackend cfg).storage pn).map Pool.volumes :=
    scLoop_storage_volumes s.storageClasses (some old) (factoryBackend cfg) pn
  have hsome : (mapFind? looped.storage pn).isSome = true := by
    cases hf : mapFind? looped.storage pn
    · rw [hf] at hproj
      cases hg : mapFind? (factoryBackend cfg).storage pn
      · rw [hg] at hfact; cases hfact
      · rw [hg] at hproj; cases hproj
    · rfl
  obtain ⟨pl1, hpl1⟩ := Option.isSome_iff_exists.mp hsome
  rw [foldl_modify_find?_mem pn p old.storage hmem hkeys, hpl1]
  exact ⟨poolAddVolumes p.volumes pl1, rfl, poolAddVolumes_find?_mem vn vc p.volumes hvc hvnodup pl1⟩

/-- Volume config shared by the C7 witness data. -/
def c7cfgV : VolumeConfig := ⟨"v1", "1Gi", "gold", .file, .readWriteOnce, 1⟩

/-- Old backend for the C7 witness: pool `a` holds volume `v1`. -/
def c7old : Backend :=
  ⟨"bU", .file, true, "trident_",
   [("a", ⟨"a", [], [], [("v1", c7cfgV)]⟩), ("b", ⟨"b", [], [], []⟩)]⟩

/-- New configuration for the C7 witness: same protocol, same pools. -/
def c7cfg : BackendConfig := ⟨"bU", .file, "trident_", [⟨"a", []⟩, ⟨"b", []⟩]⟩

/-- Orchestrator state for the C7 witness. -/
def c7state : OState :=
  ⟨[("bU", c7old)], [("v1", ⟨c7cfgV, "bU", "a"⟩)], [],
   ⟨[("bU", true)], [("v1", c7cfgV)], [], []⟩, true⟩

theorem c7_witness :
    (mapFind? c7state.backends c7cfg.name = some c7old ∧
     validateBackendUpdate c7state.storageClasses c7old (factoryBackend c7cfg) = [] ∧
     (c7old.storage.map Prod.fst).Nodup ∧
     (("a", (⟨"a", [], [], [("v1", c7cfgV)]⟩ : Pool)) ∈ c7old.storage) ∧
     (("v1", c7cfgV) ∈ (⟨"a", [], [], [("v1", c7cfgV)]⟩ : Pool).volumes)) ∧
    (∃ nb', mapFind? (AddStorageBackend c7state true c7cfg).2.backends c7cfg.name = some nb' ∧
      ∃ p', mapFind? nb'.storage "a" = some p' ∧ mapFind? p'.volumes "v1" = some c7cfgV) :=
  ⟨⟨by decide, by decide, by decide, by decide, by decide⟩,
   (c7_update_rebinds_volumes c7state c7cfg c7old (by decide) (by decide) (by decide)).2.2
     "a" ⟨"a", [], [], [("v1", c7cfgV)]⟩ (by decide) (by decide) "v1" c7cfgV (by decide)⟩

/-! ## Claim C3 -/

/-- The `errorMessages` list the placement loop accumulates when visiting
`visit`: one entry per visited pool whose driver create fails. -/
def expectedFailures (o : AVOracles) (cfg : VolumeConfig) (pools : List PoolRef)
    (visit : List Nat) : List AttemptFailure :=
  visit.filterMap (fun i => pools[i]?.bind (fun pr =>
    (o.createErr pr.backendName pr.poolName).map
      (fun m => ⟨cfg.name, pr.poolName, pr.backendName, m⟩)))

theorem placementLoop_all_fail (o : AVOracles) (cfg : VolumeConfig) (pools : List PoolRef)
    (s : OState)
    (hfail : ∀ pr ∈ pools, (o.createErr pr.backendName pr.poolName).isSome = true) :
    ∀ visit acc, placementLoop o cfg pools s visit acc
      = .exhausted (acc ++ expectedFailures o cfg pools visit) s := by
  intro visit
  induction visit with
  | nil => intro acc; simp [placementLoop, expectedFailures]
  | cons i rest ih =>
    intro acc
    cases hget : pools[i]? with
    | none =>
      rw [placementLoop, hget, ih acc]
      simp [expectedFailures, List.filterMap_cons, hget]
    | some pr =>
      have hmem : pr ∈ pools := by
        have hh : pools.get? i = some pr := by
          rw [List.get?_eq_getElem?]; exact hget
        exact List.get?_mem hh
      obtain ⟨m, hm⟩ := Option.isSome_iff_exists.mp (hfail pr hmem)
      rw [placementLoop, hget]
      simp only [hm]
      rw [ih]
      simp [expectedFailures, List.filterMap_cons, hget, hm]

theorem expectedFailures_cover (o : AVOracles) (cfg : VolumeConfig) (pools : List PoolRef)
    (visit : List Nat)
    (hvisit : ∀ j, j < pools.length → j ∈ visit)
    (hfail : ∀ pr ∈ pools, (o.createErr pr.backendName pr.poolName).isSome = true) :
    ∀ pr ∈ pools, ∃ e ∈ expectedFailures o cfg pools visit, e.backend = pr.backendName := by
  intro pr hmem
  obtain ⟨j, hlt, hj⟩ := List.getElem_of_mem hmem
  have hj2 : pools[j]? = some pr := by
    rw [List.getElem?_eq_getElem hlt, hj]
  obtain ⟨m, hm⟩ := Option.isSome_iff_exists.mp (hfail pr hmem)
  refine ⟨⟨cfg.name, pr.poolName, pr.backendName, m⟩, ?_, rfl⟩
  refine List.mem_filterMap.mpr ⟨j, hvisit j hlt, ?_⟩
  rw [hj2]
  simp [hm]

/-- Claim C3: if every candidate pool fails the backend create during
`AddVolume` (and the store itself behaves), `AddVolume` returns the
aggregated `AllBackendsFailed` error whose entries name each failing
backend, no volume is present under the requested name in the in-memory
catalog or in the persistent store, and the write-ahead `AddVolume`
transaction has been deleted from the store. -/
theorem c3_all_backends_failed (s : OState) (o : AVOracles) (cfgIn : VolumeConfig)
    (sc : StorageClass)
    (habsent : mapFind? s.volumes cfgIn.name = none)
    (hsc : mapFind? s.storageClasses cfgIn.storageClass = some sc)
    (hpools : addVolumePlacementPools sc cfgIn ≠ [])
    (hnotxn : mapFind? s.store.volTxns cfgIn.name = none)
    (hstoreAbsent : mapFind? s.store.volumes cfgIn.name = none)
    (hgetTxn : o.getTxnOk = true) (haddTxn : o.addTxnOk = true) (hdelTxn : o.deleteTxnOk = true)
    (hfail : ∀ pr ∈ addVolumePlacementPools sc cfgIn,
      (o.createErr pr.backendName pr.poolName).isSome = true)
    (hvisit : ∀ j, j < (addVolumePlacementPools sc cfgIn).length → j ∈ o.perm) :
    ∃ entries, entries ≠ [] ∧
      (AddVolume s o cfgIn).1 = .err (some (.allBackendsFailed entries)) false false ∧
      (∀ pr ∈ addVolumePlacementPools sc cfgIn,
        ∃ e ∈ entries, e.backend = pr.backendName) ∧
      mapFind? (AddVolume s o cfgIn).2.volumes cfgIn.name = none ∧
      mapFind? (AddVolume s o cfgIn).2.store.volumes cfgIn.name = none ∧
      mapFind? (AddVolume s o cfgIn).2.store.volTxns cfgIn.name = none := by
  have hcfg : addVolumePlacementPools sc { cfgIn with version := orchestratorMajorVersion }
      = addVolumePlacementPools sc cfgIn := rfl
  have hempty : (addVolumePlacementPools sc cfgIn).isEmpty = false := by
    cases hp : addVolumePlacementPools sc cfgIn
    · exact absurd hp hpools
    · rfl
  obtain ⟨pr0, hpr0⟩ := List.exists_mem_of_ne_nil _ hpools
  have hcover := expectedFailures_cover o { cfgIn with version := orchestratorMajorVersion }
    (addVolumePlacementPools sc cfgIn) o.perm hvisit hfail
  obtain ⟨e0, he0, _⟩ := hcover pr0 hpr0
  refine ⟨expectedFailures o { cfgIn with version := orchestratorMajorVersion }
    (addVolumePlacementPools sc cfgIn) o.perm, List.ne_nil_of_mem he0, ?_⟩
  have hrun : AddVolume s o cfgIn
      = avFinish o cfgIn.name
          (placementLoop o { cfgIn with version := orchestratorMajorVersion }
            (addVolumePlacementPools sc cfgIn)
            { s with store := { s.store with volTxns := (mapInsert s.store.volTxns cfgIn.name
                ⟨.addVolume, { cfgIn with version := orchestratorMajorVersion }⟩) } }
            o.perm []) := by
    rw [AddVolume]
    simp only [habsent, Option.isSome_none, Bool.false_eq_true, if_false]
    rw [show ({ cfgIn with version := orchestratorMajorVersion } : VolumeConfig).storageClass
      = cfgIn.storageClass from rfl, hsc]
    simp only [hcfg, hempty, Bool.false_eq_true, if_false, hgetTxn, Bool.not_true,
      hnotxn, haddTxn, ite_false, ite_true]
  rw [hrun, placementLoop_all_fail o _ _ _ hfail o.perm []]
  have hents : ¬(([] ++ expectedFailures o { cfgIn with version := orchestratorMajorVersion }
      (addVolumePlacementPools sc cfgIn) o.perm).isEmpty = true) := by
    rw [List.nil_append]
    cases hp : expectedFailures o { cfgIn with version := orchestratorMajorVersion }
      (addVolumePlacementPools sc cfgIn) o.perm
    · rw [hp] at he0; cases he0
    · simp
  rw [avFinish]
  simp only [List.nil_append] at *
  simp only [hents, ite_false, if_neg, hdelTxn, ite_true]
  refine ⟨rfl, hcover, habsent, hstoreAbsent, ?_⟩
  exact mapFind?_erase_self _ _

/-- Volume request for the C3 witness. -/
def c3cfg : VolumeConfig := ⟨"v1", "1Gi", "gold", .file, .readWriteOnce, 1⟩

/-- Storage class for the C3 witness, with one pool on each of two
backends. -/
def c3sc : StorageClass := ⟨"gold", [], [⟨"b1", "p1", .file⟩, ⟨"b2", "q1", .file⟩]⟩

/-- Orchestrator state for the C3 witness: two online backends. -/
def c3state : OState :=
  ⟨[("b1", ⟨"b1", .file, true, "t_", [("p1", ⟨"p1", [], ["gold"], []⟩)]⟩),
    ("b2", ⟨"b2", .file, true, "n_", [("q1", ⟨"q1", [], ["gold"], []⟩)]⟩)],
   [], [("gold", c3sc)], ⟨[("b1", true), ("b2", true)], [], [], []⟩, true⟩

/-- Oracles for the C3 witness: the store behaves, both drivers reject the
create, and the random permutation visits pool 1 first. -/
def c3oracles : AVOracles :=
  ⟨true, ⟨fun _ => true, ⟨true, true, true⟩, true⟩, true,
   fun _ _ => some "no space", true, true, true, [1, 0]⟩

theorem c3_witness :
    (mapFind? c3state.volumes "v1" = none ∧
     mapFind? c3state.storageClasses "gold" = some c3sc ∧
     addVolumePlacementPools c3sc c3cfg ≠ [] ∧
     mapFind? c3state.store.volTxns "v1" = none ∧
     mapFind? c3state.store.volumes "v1" = none) ∧
    (∃ entries, entries ≠ [] ∧
      (AddVolume c3state c3oracles c3cfg).1
        = .err (some (.allBackendsFailed entries)) false false ∧
      (∀ pr ∈ addVolumePlacementPools c3sc c3cfg,
        ∃ e ∈ entries, e.backend = pr.backendName) ∧
      mapFind? (AddVolume c3state c3oracles c3cfg).2.volumes "v1" = none ∧
      mapFind? (AddVolume c3state c3oracles c3cfg).2.store.volumes "v1" = none ∧
      mapFind? (AddVolume c3state c3oracles c3cfg).2.store.volTxns "v1" = none) :=
  ⟨⟨by decide, by decide, by decide, by decide, by decide⟩,
   c3_all_backends_failed c3state c3oracles c3cfg c3sc (by decide) (by decide) (by decide)
     (by decide) (by decide) (by decide) (by decide) (by decide) (by decide)
     (by
       intro j hj
       have h2 : (addVolumePlacementPools c3sc c3cfg).length = 2 := by decide
       rw [h2] at hj
       interval_cases j <;> decide)⟩

/-! ## Claim C5: preservation lemmas -/

/-- The invariant restated on a raw backend map. -/
def invMap (m : SMap Backend) : Prop :=
  ∀ p ∈ m, p.2.online = true ∨ p.2.hasVolumes = true

theorem registryInv_iff (s : OState) : RegistryInv s ↔ invMap s.backends := Iff.rfl

theorem invMap_insert {m : SMap Backend} {k : String} {b : Backend}
    (hm : invMap m) (hb : b.online = true ∨ b.hasVolumes = true) :
    invMap (mapInsert m k b) := by
  intro p hp
  rcases mem_mapInsert hp with he | ⟨hpm, _⟩
  · rw [he]; exact hb
  · exact hm p hpm

theorem invMap_erase {m : SMap Backend} {k : String} (hm : invMap m) :
    invMap (mapErase m k) := by
  intro p hp
  exact hm p (mem_mapErase hp).1

theorem invMap_erase_insert (m : SMap Backend) (k : String) (b : Backend)
    (hm : invMap m) : invMap (mapErase (mapInsert m k b) k) := by
  intro p hp
  obtain ⟨hp1, hp2⟩ := mem_mapErase hp
  rcases mem_mapInsert hp1 with he | ⟨hpm, _⟩
  · exact absurd (by rw [he]) hp2
  · exact hm p hpm

theorem invMap_modify {m : SMap Backend} {k : String} {f : Backend → Backend}
    (hm : invMap m)
    (hf : ∀ b, (b.online = true ∨ b.hasVolumes = true) →
      ((f b).online = true ∨ (f b).hasVolumes = true)) :
    invMap (mapModify m k f) := by
  intro p hp
  obtain ⟨q, hq, he⟩ := mem_mapModify hp
  by_cases hqk : q.1 = k
  · rw [he, if_pos hqk]
    exact hf q.2 (hm q hq)
  · rw [he, if_neg hqk]
    exact hm q hq

theorem any_volumes_map (l : List (String × Pool)) (f : String × Pool → String × Pool)
    (hf : ∀ p, ((f p).2).volumes = p.2.volumes) :
    (l.map f).any (fun p => !p.2.volumes.isEmpty) = l.any (fun p => !p.2.volumes.isEmpty) := by
  induction l with
  | nil => rfl
  | cons a t ih => simp [List.any_cons, hf a, ih]

theorem hasVolumes_map_preserve (b : Backend) (f : String × Pool → String × Pool)
    (hf : ∀ p, ((f p).2).volumes = p.2.volumes) :
    (Backend.hasVolumes { b with storage := b.storage.map f }) = b.hasVolumes :=
  any_volumes_map b.storage f hf

theorem hasVolumes_modify_insert (b : Backend) (pn vn : String) (vc : VolumeConfig)
    (h : b.hasVolumes = true) :
    (Backend.hasVolumes { b with storage := (mapModify b.storage pn
      (fun p => { p with volumes := mapInsert p.volumes vn vc })) }) = true := by
  rw [Backend.hasVolumes] at *
  rw [List.any_eq_true] at *
  obtain ⟨q, hq, hqe⟩ := h
  refine ⟨if q.1 = pn then (q.1, { q.2 with volumes := mapInsert q.2.volumes vn vc }) else q,
    List.mem_map.mpr ⟨q, hq, rfl⟩, ?_⟩
  by_cases hqp : q.1 = pn
  · simp [hqp, mapInsert]
  · simp only [hqp, if_neg, ite_false]
    exact hqe

theorem checkAndAddBackend_online (sc : StorageClass) (b : Backend) :
    (checkAndAddBackend sc b).2.online = b.online := rfl

theorem checkAndAddBackend_hasVolumes (sc : StorageClass) (b : Backend) :
    (checkAndAddBackend sc b).2.hasVolumes = b.hasVolumes := by
  apply any_volumes_map
  intro p
  by_cases hm : sc.matchesPool p.2 <;> simp [hm]

theorem scLoop_online (scs : SMap StorageClass) (old? : Option Backend) (nb : Backend) :
    (scLoop scs old? nb).2.online = nb.online := by
  induction scs generalizing nb with
  | nil => rfl
  | cons a rest ih =>
    obtain ⟨n, sc⟩ := a
    cases old? with
    | none =>
      have h2 : (scLoop ((n, sc) :: rest) none nb).2
          = (scLoop rest none (checkAndAddBackend sc nb).2).2 := rfl
      rw [h2, ih, checkAndAddBackend_online]
    | some old =>
      have h2 : (scLoop ((n, sc) :: rest) (some old) nb).2
          = (scLoop rest (some old)
              (checkAndAddBackend (sc.removePoolsForBackend old.name) nb).2).2 := rfl
      rw [h2, ih, checkAndAddBackend_online]

/-- The final state carried by a placement-loop outcome. -/
def AVBodyOut.state : AVBodyOut → OState
  | .success _ s => s
  | .storeAddFailed _ s => s
  | .exhausted _ s => s

theorem placementLoop_inv (o : AVOracles) (cfg : VolumeConfig) (pools : List PoolRef) :
    ∀ (visit : List Nat) (acc : List AttemptFailure) (s : OState), RegistryInv s →
    RegistryInv (placementLoop o cfg pools s visit acc).state ∧
    (o.storeAddOk = true →
      ∀ vol s', placementLoop o cfg pools s visit acc ≠ .storeAddFailed vol s') := by
  intro visit
  induction visit with
  | nil =>
    intro acc s hs
    exact ⟨hs, fun _ vol s' h => by cases h⟩
  | cons i rest ih =>
    intro acc s hs
    cases hget : pools[i]? with
    | none =>
      have he : placementLoop o cfg pools s (i :: rest) acc
          = placementLoop o cfg pools s rest acc := by
        rw [placementLoop, hget]
      rw [he]
      exact ih acc s hs
    | some pr =>
      cases hcr : o.createErr pr.backendName pr.poolName with
      | some msg =>
        have he : placementLoop o cfg pools s (i :: rest) acc
            = placementLoop o cfg pools s rest
                (acc ++ [⟨cfg.name, pr.poolName, pr.backendName, msg⟩]) := by
          rw [placementLoop, hget]
          simp only [hcr]
        rw [he]
        exact ih _ s hs
      | none =>
        by_cases hsa : o.storeAddOk = true
        · have hs1 : ∀ cfg1 : VolumeConfig,
              invMap (mapModify s.backends pr.backendName (fun b =>
                { b with storage := (mapModify b.storage pr.poolName (fun p =>
                    { p with volumes := (mapInsert p.volumes cfg.name cfg1) })) })) := by
            intro cfg1
            refine invMap_modify hs ?_
            intro b hb
            rcases hb with ho | hv
            · exact Or.inl ho
            · exact Or.inr (hasVolumes_modify_insert b pr.poolName cfg.name cfg1 hv)
          obtain ⟨vol0, s0, hs0, heq⟩ : ∃ vol0 s0,
              RegistryInv s0 ∧ placementLoop o cfg pools s (i :: rest) acc
                = .success vol0 s0 := by
            rw [placementLoop, hget]
            simp only [hcr, hsa, ite_true]
            refine ⟨_, _, ?_, rfl⟩
            exact hs1 _
          rw [heq]
          exact ⟨hs0, fun _ vol s' h => by cases h⟩
        · have hsa' : o.storeAddOk = false := by
            cases hx : o.storeAddOk with
            | false => rfl
            | true => exact absurd hx hsa
          have hs1 : ∀ cfg1 : VolumeConfig,
              invMap (mapModify s.backends pr.backendName (fun b =>
                { b with storage := (mapModify b.storage pr.poolName (fun p =>
                    { p with volumes := (mapInsert p.volumes cfg.name cfg1) })) })) := by
            intro cfg1
            refine invMap_modify hs ?_
            intro b hb
            rcases hb with ho | hv
            · exact Or.inl ho
            · exact Or.inr (hasVolumes_modify_insert b pr.poolName cfg.name cfg1 hv)
          obtain ⟨vol0, s0, hs0, heq⟩ : ∃ vol0 s0,
              RegistryInv s0 ∧ placementLoop o cfg pools s (i :: rest) acc
                = .storeAddFailed vol0 s0 := by
            rw [placementLoop, hget]
            simp only [hcr, hsa', Bool.false_eq_true, ite_false]
            refine ⟨_, _, ?_, rfl⟩
            exact hs1 _
          rw [heq]
          exact ⟨hs0, fun hc => absurd hc hsa⟩

theorem rbFinish_backends (s : OState) (ok : Bool) (n : String) :
    (rbFinish s ok n).2.backends = s.backends := by
  rw [rbFinish]
  by_cases h : ok = true
  · simp [h]
  · have h' : ok = false := by
      cases hx : ok
      · rfl
      · exact absurd hx h
    simp [h']

theorem deleteVolume_preserves (s : OState) (o : DVOracles) (n : String)
    (hsd : o.storeDeleteVolumeOk = true) (hdb : o.storeDeleteBackendOk = true)
    (h : RegistryInv s) : RegistryInv (deleteVolume s o n).2 := by
  cases hv : mapFind? s.volumes n with
  | none =>
    simp only [deleteVolume, hv]
    exact h
  | some volume =>
    cases hb : mapFind? s.backends volume.backendName with
    | none =>
      simp only [deleteVolume, hv, hb]
      exact h
    | some backend =>
      cases hrm : o.removeVolumeOk with
      | false =>
        simp only [deleteVolume, hv, hb, hrm, Bool.not_false, ite_true]
        exact h
      | true =>
        cases hbr : ((!(backend.removeVolume n volume.poolName).online)
            && (!(backend.removeVolume n volume.poolName).hasVolumes)) with
        | true =>
          simp only [deleteVolume, hv, hb, hrm, hsd, hdb, hbr, Bool.not_true,
            Bool.false_eq_true, ite_false, ite_true]
          rw [registryInv_iff]
          exact invMap_erase_insert s.backends volume.backendName _ h
        | false =>
          simp only [deleteVolume, hv, hb, hrm, hsd, hdb, hbr, Bool.not_true,
            Bool.false_eq_true, ite_false]
          rw [registryInv_iff]
          apply invMap_insert h
          cases ho : (backend.removeVolume n volume.poolName).online with
          | true => exact Or.inl rfl
          | false =>
            cases hhv : (backend.removeVolume n volume.poolName).hasVolumes with
            | true => exact Or.inr rfl
            | false =>
              rw [ho, hhv] at hbr
              simp at hbr

theorem DeleteVolume_preserves (s : OState) (o : DelOracles) (n : String)
    (hsd : o.dv.storeDeleteVolumeOk = true) (hdb : o.dv.storeDeleteBackendOk = true)
    (h : RegistryInv s) : RegistryInv (DeleteVolume s o n).2 := by
  cases hv : mapFind? s.volumes n with
  | none =>
    simp only [DeleteVolume, hv]
    exact h
  | some volume =>
    cases hat : o.addTxnOk with
    | false =>
      simp only [DeleteVolume, hv, hat, Bool.not_false, ite_true]
      exact h
    | true =>
      have h1 : RegistryInv { s with store := { s.store with
          volTxns := (mapInsert s.store.volTxns n ⟨.deleteVolume, volume.config⟩) } } := h
      have h2 := deleteVolume_preserves { s with store := { s.store with
          volTxns := (mapInsert s.store.volTxns n ⟨.deleteVolume, volume.config⟩) } } o.dv n hsd hdb h1
      cases hd : deleteVolume { s with store := { s.store with
          volTxns := (mapInsert s.store.volTxns n ⟨.deleteVolume, volume.config⟩) } } o.dv n with
      | mk res s2 =>
        rw [hd] at h2
        cases res with
        | some e =>
          simp only [DeleteVolume, hv, hat, Bool.not_true, Bool.false_eq_true, ite_false, hd]
          exact h2
        | none =>
          cases hdt : o.deleteTxnOk with
          | false =>
            simp only [DeleteVolume, hv, hat, hdt, Bool.not_true, Bool.not_false,
              Bool.false_eq_true, ite_false, ite_true, hd]
            rw [registryInv_iff]
            exact h2
          | true =>
            simp only [DeleteVolume, hv, hat, hdt, Bool.not_true, Bool.false_eq_true,
              ite_false, hd]
            rw [registryInv_iff]
            exact h2

theorem rollBackTransaction_preserves (s : OState) (o : RBOracles) (txn : VolTxn)
    (hsd : o.dv.storeDeleteVolumeOk = true) (hdb : o.dv.storeDeleteBackendOk = true)
    (h : RegistryInv s) : RegistryInv (rollBackTransaction s o txn).1.2 := by
  have hrb : ∀ s' : OState, RegistryInv s' →
      RegistryInv (rbFinish s' o.deleteTxnOk txn.config.name).2 := by
    intro s' hs'
    rw [registryInv_iff, rbFinish_backends]
    exact hs'
  cases hop : txn.op with
  | addVolume =>
    cases hv : mapFind? s.volumes txn.config.name with
    | some v =>
      have h2 := deleteVolume_preserves s o.dv txn.config.name hsd hdb h
      cases hd : deleteVolume s o.dv txn.config.name with
      | mk res s1 =>
        rw [hd] at h2
        cases res with
        | some e =>
          simp only [rollBackTransaction, hop, hv, hd]
          exact h2
        | none =>
          simp only [rollBackTransaction, hop, hv, hd]
          exact hrb s1 h2
    | none =>
      cases hda : destroyAll o.destroyOk txn.config.name s.backends [] with
      | mk r calls =>
        cases r with
        | some bn =>
          simp only [rollBackTransaction, hop, hv, hda]
          exact h
        | none =>
          simp only [rollBackTransaction, hop, hv, hda]
          exact hrb s h
  | deleteVolume =>
    cases hv : mapFind? s.volumes txn.config.name with
    | some v =>
      have h2 := deleteVolume_preserves s o.dv txn.config.name hsd hdb h
      cases hd : deleteVolume s o.dv txn.config.name with
      | mk res s1 =>
        rw [hd] at h2
        cases res with
        | some e =>
          simp only [rollBackTransaction, hop, hv, hd]
          exact h2
        | none =>
          simp only [rollBackTransaction, hop, hv, hd]
          exact hrb s1 h2
    | none =>
      simp only [rollBackTransaction, hop, hv]
      exact hrb s h

theorem AddVolume_preserves (s : OState) (o : AVOracles) (cfgIn : VolumeConfig)
    (hsa : o.storeAddOk = true)
    (hsd : o.rb.dv.storeDeleteVolumeOk = true) (hdb : o.rb.dv.storeDeleteBackendOk = true)
    (h : RegistryInv s) : RegistryInv (AddVolume s o cfgIn).2 := by
  cases he : (mapFind? s.volumes cfgIn.name).isSome with
  | true =>
    simp only [AddVolume, he, ite_true]
    exact h
  | false =>
    cases hsc : mapFind? s.storageClasses cfgIn.storageClass with
    | none =>
      simp only [AddVolume, he, Bool.false_eq_true, ite_false, hsc]
      exact h
    | some sc =>
      cases hpe : (addVolumePlacementPools sc
          { cfgIn with version := orchestratorMajorVersion }).isEmpty with
      | true =>
        simp only [AddVolume, he, Bool.false_eq_true, ite_false, hsc, hpe, ite_true]
        exact h
      | false =>
        cases hgt : o.getTxnOk with
        | false =>
          simp only [AddVolume, he, Bool.false_eq_true, ite_false, hsc, hpe, hgt,
            Bool.not_false, ite_true]
          exact h
        | true =>
          have hmain : ∀ s1 : OState, RegistryInv s1 →
              RegistryInv (avFinish o cfgIn.name
                (placementLoop o { cfgIn with version := orchestratorMajorVersion }
                  (addVolumePlacementPools sc { cfgIn with version := orchestratorMajorVersion })
                  { s1 with store := { s1.store with
                     volTxns := (mapInsert s1.store.volTxns cfgIn.name
                       ⟨.addVolume, { cfgIn with version := orchestratorMajorVersion }⟩) } }
                  o.perm [])).2 := by
            intro s1 hs1
            have hs2 : RegistryInv { s1 with store := { s1.store with
                volTxns := (mapInsert s1.store.volTxns cfgIn.name
                  ⟨.addVolume, { cfgIn with version := orchestratorMajorVersion }⟩) } } := hs1
            obtain ⟨hstate, hnofail⟩ := placementLoop_inv o
              { cfgIn with version := orchestratorMajorVersion }
              (addVolumePlacementPools sc { cfgIn with version := orchestratorMajorVersion })
              o.perm [] _ hs2
            cases hpl : placementLoop o { cfgIn with version := orchestratorMajorVersion }
                (addVolumePlacementPools sc { cfgIn with version := orchestratorMajorVersion })
                { s1 with store := { s1.store with
                   volTxns := (mapInsert s1.store.volTxns cfgIn.name
                     ⟨.addVolume, { cfgIn with version := orchestratorMajorVersion }⟩) } }
                o.perm [] with
            | success vol st =>
              rw [hpl] at hstate
              cases hdt : o.deleteTxnOk with
              | true =>
                simp only [avFinish, hdt, ite_true]
                exact hstate
              | false =>
                simp only [avFinish, hdt, Bool.false_eq_true, ite_false]
                exact hstate
            | storeAddFailed vol st =>
              exact absurd hpl (hnofail hsa vol st)
            | exhausted entries st =>
              rw [hpl] at hstate
              cases hdt : o.deleteTxnOk with
              | true =>
                simp only [avFinish, hdt, ite_true]
                exact hstate
              | false =>
                simp only [avFinish, hdt, Bool.false_eq_true, ite_false]
                exact hstate
          cases ht : mapFind? s.store.volTxns cfgIn.name with
          | none =>
            cases hat : o.addTxnOk with
            | false =>
              simp only [AddVolume, he, Bool.false_eq_true, ite_false, hsc, hpe, hgt,
                Bool.not_true, Bool.not_false, ht, hat, ite_true]
              exact h
            | true =>
              simp only [AddVolume, he, Bool.false_eq_true, ite_false, hsc, hpe, hgt,
                Bool.not_true, ht, hat, ite_true]
              exact hmain s h
          | some oldTxn =>
            have h1 := rollBackTransaction_preserves s o.rb oldTxn hsd hdb h
            cases hr : (rollBackTransaction s o.rb oldTxn).1 with
            | mk res s1 =>
              rw [hr] at h1
              cases res with
              | some e =>
                simp only [AddVolume, he, Bool.false_eq_true, ite_false, hsc, hpe, hgt,
                  Bool.not_true, ht, hr, ite_true]
                exact h1
              | none =>
                cases hat : o.addTxnOk with
                | false =>
                  simp only [AddVolume, he, Bool.false_eq_true, ite_false, hsc, hpe, hgt,
                    Bool.not_true, Bool.not_false, ht, hr, hat, ite_true]
                  exact h1
                | true =>
                  simp only [AddVolume, he, Bool.false_eq_true, ite_false, hsc, hpe, hgt,
                    Bool.not_true, ht, hr, hat, ite_true]
                  exact hmain s1 h1

theorem factoryBackend_online (cfg : BackendConfig) : (factoryBackend cfg).online = true := rfl

theorem addBackendCommit_preserves (s : OState) (ok : Bool) (old? : Option Backend)
    (nb : Backend) (hnb : nb.online = true) (h : RegistryInv s) :
    RegistryInv (addBackendCommit s ok old? nb).2 := by
  cases hbs : (s.bootstrapped && !ok) with
  | true =>
    cases old? with
    | none =>
      simp only [addBackendCommit, hbs, ite_true]
      exact h
    | some old =>
      simp only [addBackendCommit, hbs, ite_true]
      exact h
  | false =>
    cases old? with
    | none =>
      simp only [addBackendCommit, hbs, Bool.false_eq_true, ite_false]
      rw [registryInv_iff]
      refine invMap_insert (invMap_insert h (Or.inl hnb)) ?_
      exact Or.inl ((scLoop_online s.storageClasses none nb).trans hnb)
    | some old =>
      simp only [addBackendCommit, hbs, Bool.false_eq_true, ite_false, transferVolumes]
      rw [registryInv_iff]
      intro p hp
      dsimp only at hp
      obtain ⟨q, hq, hpe⟩ := mem_mapModify hp
      by_cases hqk : q.1 = nb.name
      · rcases mem_mapInsert hq with heq | ⟨_, hne⟩
        · rw [hpe, if_pos hqk, heq]
          exact Or.inl ((scLoop_online s.storageClasses (some old) nb).trans hnb)
        · exact absurd hqk hne
      · rw [hpe, if_neg hqk]
        rcases mem_mapInsert hq with heq | ⟨hq2, _⟩
        · rw [heq] at hqk
          exact absurd rfl hqk
        · rcases mem_mapInsert hq2 with heq | ⟨hq3, _⟩
          · rw [heq] at hqk
            exact absurd rfl hqk
          · exact h q hq3

theorem AddStorageBackend_preserves (s : OState) (ok : Bool) (cfg : BackendConfig)
    (h : RegistryInv s) : RegistryInv (AddStorageBackend s ok cfg).2 := by
  cases hf : mapFind? s.backends (factoryBackend cfg).name with
  | none =>
    simp only [AddStorageBackend, hf]
    exact addBackendCommit_preserves s ok none (factoryBackend cfg) rfl h
  | some old =>
    cases hv : (validateBackendUpdate s.storageClasses old (factoryBackend cfg)).isEmpty with
    | true =>
      simp only [AddStorageBackend, hf, hv, ite_true]
      exact addBackendCommit_preserves s ok (some old) (factoryBackend cfg) rfl h
    | false =>
      simp only [AddStorageBackend, hf, hv, Bool.false_eq_true, ite_false]
      exact h

theorem OfflineBackend_preserves (s : OState) (ok : Bool) (n : String)
    (h : RegistryInv s) : RegistryInv (OfflineBackend s ok n).2 := by
  cases hf : mapFind? s.backends n with
  | none =>
    simp only [OfflineBackend, hf]
    exact h
  | some backend =>
    cases hhv : (Backend.hasVolumes { backend with
        online := false,
        storage := backend.storage.map
          (fun p => (p.1, { p.2 with storageClasses := [] })) }) with
    | false =>
      simp only [OfflineBackend, hf, hhv, Bool.not_false, ite_true]
      rw [registryInv_iff]
      exact invMap_erase_insert s.backends n _ h
    | true =>
      cases hok : ok with
      | true =>
        simp only [OfflineBackend, hf, hhv, hok, Bool.not_true, Bool.false_eq_true,
          ite_false, ite_true]
        rw [registryInv_iff]
        exact invMap_insert h (Or.inr hhv)
      | false =>
        simp only [OfflineBackend, hf, hhv, hok, Bool.not_true, Bool.false_eq_true,
          ite_false]
        rw [registryInv_iff]
        exact invMap_insert h (Or.inr hhv)

theorem scAddLoop_invMap : ∀ (m : SMap Backend) (sc : StorageClass),
    invMap m → invMap (scAddLoop sc m).2 := by
  intro m
  induction m with
  | nil =>
    intro sc _ p hp
    cases hp
  | cons a t ih =>
    obtain ⟨n, b⟩ := a
    intro sc hm p hp
    have he : (scAddLoop sc ((n, b) :: t)).2
        = (n, (checkAndAddBackend sc b).2) :: (scAddLoop (checkAndAddBackend sc b).1 t).2 := rfl
    rw [he] at hp
    rcases List.mem_cons.mp hp with heq | hmem
    · rw [heq]
      have hgood := hm (n, b) (List.mem_cons_self _ _)
      rcases hgood with ho | hv
      · exact Or.inl ((checkAndAddBackend_online sc b).trans ho)
      · exact Or.inr ((checkAndAddBackend_hasVolumes sc b).trans hv)
    · exact ih (checkAndAddBackend sc b).1
        (fun q hq => hm q (List.mem_cons_of_mem _ hq)) p hmem

theorem AddStorageClass_preserves (s : OState) (ok : Bool) (cfg : SCConfig)
    (h : RegistryInv s) : RegistryInv (AddStorageClass s ok cfg).2 := by
  cases he : (mapFind? s.storageClasses cfg.name).isSome with
  | true =>
    simp only [AddStorageClass, he, ite_true]
    exact h
  | false =>
    cases hok : ok with
    | false =>
      simp only [AddStorageClass, he, hok, Bool.false_eq_true, ite_false, Bool.not_false,
        ite_true]
      exact h
    | true =>
      simp only [AddStorageClass, he, hok, Bool.false_eq_true, ite_false, Bool.not_true]
      rw [registryInv_iff]
      exact scAddLoop_invMap s.backends ⟨cfg.name, cfg.requiredAttributes, []⟩ h

theorem DeleteStorageClass_foldl_preserves (scName : String) :
    ∀ (members : List PoolRef) (st : OState), RegistryInv st →
    RegistryInv (members.foldl (fun st m =>
      { st with backends := (mapModify st.backends m.backendName (fun b =>
          { b with storage := (mapModify b.storage m.poolName (fun p =>
              { p with storageClasses := p.storageClasses.filter (fun x => x != scName) })) })) })
      st) := by
  intro members
  induction members with
  | nil => intro st h; exact h
  | cons m rest ih =>
    intro st h
    rw [List.foldl_cons]
    apply ih
    rw [registryInv_iff]
    dsimp only
    refine invMap_modify h ?_
    intro b hb
    rcases hb with ho | hv
    · exact Or.inl ho
    · refine Or.inr ?_
      have heq : (Backend.hasVolumes { b with storage := (mapModify b.storage m.poolName
          (fun p => { p with storageClasses := p.storageClasses.filter (fun x => x != scName) })) })
          = b.hasVolumes := by
        apply any_volumes_map
        intro p
        by_cases hp : p.1 = m.poolName <;> simp [hp]
      rw [heq]
      exact hv

theorem DeleteStorageClass_preserves (s : OState) (ok : Bool) (n : String)
    (h : RegistryInv s) : RegistryInv (DeleteStorageClass s ok n).2 := by
  cases hf : mapFind? s.storageClasses n with
  | none =>
    simp only [DeleteStorageClass, hf]
    exact h
  | some sc =>
    cases hok : ok with
    | false =>
      simp only [DeleteStorageClass, hf, hok, Bool.not_false, ite_true]
      exact h
    | true =>
      simp only [DeleteStorageClass, hf, hok, Bool.not_true, Bool.false_eq_true, ite_false]
      exact DeleteStorageClass_foldl_preserves n sc.members _ h

/-- Every public operation whose persistent-store calls all succeed
preserves the registry invariant (driver failures included). -/
theorem op_preserves (s : OState) (op : Op) (hsafe : op.storeSafe)
    (h : RegistryInv s) : RegistryInv (op.apply s) := by
  cases op with
  | addBackend cfg ok => exact AddStorageBackend_preserves s ok cfg h
  | offlineBackend n ok => exact OfflineBackend_preserves s ok n h
  | addVolume cfg o =>
    obtain ⟨_, _, hsa, _, _, hsd, hdb⟩ := hsafe
    exact AddVolume_preserves s o cfg hsa hsd hdb h
  | deleteVolume n o =>
    obtain ⟨_, _, hsd, hdb⟩ := hsafe
    exact DeleteVolume_preserves s o n hsd hdb h
  | addStorageClass cfg ok => exact AddStorageClass_preserves s ok cfg h
  | deleteStorageClass n ok => exact DeleteStorageClass_preserves s ok n h

theorem applyOps_preserves (ops : List Op) : ∀ s : OState, RegistryInv s →
    (∀ op ∈ ops, op.storeSafe) → RegistryInv (applyOps s ops) := by
  induction ops with
  | nil => intro s h _; exact h
  | cons op rest ih =>
    intro s h hsafe
    rw [applyOps]
    exact ih (op.apply s)
      (op_preserves s op (hsafe op (List.mem_cons_self _ _)) h)
      (fun q hq => hsafe q (List.mem_cons_of_mem _ hq))

theorem gcGo_inv (del : String → Bool) :
    ∀ (l : List (String × Backend)) (s s' : OState),
    gcGo del l s = (none, s') →
    (∀ p ∈ s.backends, p ∈ l ∨ (p.2.online = true ∨ p.2.hasVolumes = true)) →
    RegistryInv s' := by
  intro l
  induction l with
  | nil =>
    intro s s' hgc hcov
    have hs : s = s' := congrArg Prod.snd hgc
    subst hs
    intro p hp
    rcases hcov p hp with hc | hgood
    · cases hc
    · exact hgood
  | cons a rest ih =>
    obtain ⟨n, b⟩ := a
    intro s s' hgc hcov
    cases hcond : ((!b.online) && (!b.hasVolumes)) with
    | true =>
      cases hdel : del n with
      | false =>
        rw [gcGo, hcond, hdel] at hgc
        simp at hgc
      | true =>
        rw [gcGo, hcond, hdel] at hgc
        simp only [ite_true] at hgc
        refine ih _ s' hgc ?_
        intro p hp
        obtain ⟨hp1, hp2⟩ := mem_mapErase hp
        rcases hcov p hp1 with hc | hgood
        · rcases List.mem_cons.mp hc with heq | hmem
          · rw [heq] at hp2
            exact absurd rfl hp2
          · exact Or.inl hmem
        · exact Or.inr hgood
    | false =>
      rw [gcGo, hcond] at hgc
      simp only [Bool.false_eq_true, ite_false] at hgc
      refine ih s s' hgc ?_
      intro p hp
      rcases hcov p hp with hc | hgood
      · rcases List.mem_cons.mp hc with heq | hmem
        · refine Or.inr ?_
          rw [heq]
          cases ho : b.online with
          | true => exact Or.inl rfl
          | false =>
            cases hbv : b.hasVolumes with
            | true => exact Or.inr rfl
            | false =>
              rw [ho, hbv] at hcond
              simp at hcond
        · exact Or.inl hmem
      · exact Or.inr hgood

/-- Bootstrap's final garbage collection establishes the registry
invariant whenever it completes without a store error. -/
theorem bootstrapGC_establishes_inv (s s' : OState) (del : String → Bool)
    (h : bootstrapGC s del = (none, s')) : RegistryInv s' :=
  gcGo_inv del s.backends s s' h (fun _p hp => Or.inl hp)

/-- Claim C5, as amended: at every state reachable by the public
operations from a completed bootstrap (a state in which the final
garbage-collection pass finished without a store error), provided every
persistent-store call made by those operations succeeds, every backend in
the in-memory registry is online or holds at least one volume — so the
operation that makes an offline backend volume-less is also the one that
removes it from the registry.  The original claim, which does not assume
the store calls succeed, is refuted by `c5_counterexample`. -/
theorem c5_registry_invariant_store_ok (s0 s1 : OState) (del : String → Bool)
    (hgc : bootstrapGC s0 del = (none, s1)) (ops : List Op)
    (hsafe : ∀ op ∈ ops, op.storeSafe) :
    RegistryInv (applyOps s1 ops) :=
  applyOps_preserves ops s1 (bootstrapGC_establishes_inv s0 s1 del hgc) hsafe

/-- Volume config of the C5 counterexample. -/
def c5cfg : VolumeConfig := ⟨"v1", "1Gi", "gold", .file, .readWriteOnce, 1⟩

/-- Post-bootstrap state of the C5 counterexample: one online backend
hosting one volume. -/
def c5state : OState :=
  ⟨[("b1", ⟨"b1", .file, true, "trident_", [("p1", ⟨"p1", [], [], [("v1", c5cfg)]⟩)]⟩)],
   [("v1", ⟨c5cfg, "b1", "p1"⟩)], [],
   ⟨[("b1", true)], [("v1", c5cfg)], [], []⟩, true⟩

/-- The operation sequence of the C5 counterexample: take the backend
offline (it keeps its volume), then delete its last volume while the
store's `DeleteBackend` call fails. -/
def c5ops : List Op :=
  [.offlineBackend "b1" true,
   .deleteVolume "v1" ⟨⟨true, true, false⟩, true, true⟩]

/-- Claim C5, counterexample to the claim as stated: after a completed
bootstrap, the trace `c5ops` of public operations reaches a state whose
registry still contains backend `b1`, now offline with zero volumes — so
it is not true at every reachable state that every registered backend is
online or has a volume, and the operation that made `b1` volume-less
(`DeleteVolume`, whose store `DeleteBackend` call failed) did not remove
it.  The code knowingly leaves the backend for a retry (lines 731-742). -/
theorem c5_counterexample :
    bootstrapGC c5state (fun _ => true) = (none, c5state) ∧
    ¬ RegistryInv (applyOps c5state c5ops) ∧
    (∃ p ∈ (applyOps c5state c5ops).backends,
      p.2.online = false ∧ p.2.hasVolumes = false) := by
  refine ⟨by decide, ?_, by decide⟩
  decide

/-- Safe variant of the counterexample trace: the same operations with
every store call succeeding. -/
def c5safeOps : List Op :=
  [.offlineBackend "b1" true,
   .deleteVolume "v1" ⟨⟨true, true, true⟩, true, true⟩]

theorem c5_witness :
    bootstrapGC c5state (fun _ => true) = (none, c5state) ∧
    RegistryInv (applyOps c5state c5safeOps) :=
  ⟨by decide,
   c5_registry_invariant_store_ok c5state c5state (fun _ => true) (by decide) c5safeOps
     (by
       intro op hop
       rcases List.mem_cons.mp hop with heq | hop2
       · subst heq
         exact rfl
       · rcases List.mem_cons.mp hop2 with heq | hop3
         · subst heq
           exact ⟨rfl, rfl, rfl, rfl⟩
         · cases hop3)⟩

end Trident
